import Mathlib

/-!
# Verification of the SOLECO backtest engine

A shallow embedding of the simulation and screening core of the
SOLECO index backtester.  Numbers are modelled as rationals (`ℚ`);
the two irrational primitives `Math.pow` (with fractional exponent)
and `Math.sqrt` are passed in as function parameters, since none of
the verified properties depends on their values beyond `sqrt 0 = 0`
and `0 * sqrt x = 0`, which hold for every implementation multiplied
through the surrounding arithmetic.

Sources embedded here:
* the rebalance / drift / NAV logic of `runBacktest`;
* the helper `calculateStats` / `calculateStdDev`;
* the screening priority order (also present in `screenAsset`);
* the date-alignment (forward-fill) loop of `runBacktest`.
-/

namespace Soleco

/-- `InclusionStatus` from the repository's type definitions. -/
inductive InclusionStatus where
  | INCLUDED
  | REJECTED_CATEGORY
  | REJECTED_LAUNCH
  | REJECTED_PRIMARY_NETWORK
  | REJECTED_NATIVE
  | REJECTED_VOL
  | REJECTED_AUDIT
  | REJECTED_RANK
deriving DecidableEq, Repr

/-- `BacktestAsset` (internal asset representation in `runBacktest`). -/
structure BacktestAsset where
  symbol : String
  name : String
  isNative : Bool
  category : String
  solanaLaunchOrNexus : Bool
  primaryNetworkSolana : Bool
  hasUnresolvedAuditFindings : Bool
deriving DecidableEq, Repr

/-- `UniverseSnapshotItem` (per-asset screening record at one rebalance). -/
structure UniverseSnapshotItem where
  symbol : String
  name : String
  price : ℚ
  mcap : ℚ
  avgDailyVol : ℚ
  isNative : Bool
  status : InclusionStatus
  weight : ℚ
deriving DecidableEq, Repr

/-- One entry of the `weightConfig` list built during a dynamic rebalance. -/
structure WeightEntry where
  symbol : String
  rawWeight : ℚ
  weight : ℚ
  capped : Bool
deriving DecidableEq, Repr

/-- One entry of `currentPortfolio` in the simulation loop. -/
structure PortfolioEntry where
  symbol : String
  shares : ℚ
  weight : ℚ
deriving DecidableEq, Repr

/-- `RebalanceEvent` appended to the rebalance history. -/
structure RebalanceEvent where
  date : String
  universeSnapshot : List UniverseSnapshotItem
  totalMcap : ℚ
  turnover : ℚ
deriving DecidableEq, Repr

/-- `FinancialStats` returned by `calculateStats`. -/
structure FinancialStats where
  cumulative_return : ℚ
  annualized_return : ℚ
  annualized_volatility : ℚ
  sharpe_ratio : ℚ
  max_drawdown : ℚ
deriving DecidableEq, Repr

/-- `NormalizedPriceData`: one asset's raw daily series. -/
structure NormalizedPriceData where
  dates : List String
  prices : List ℚ
  marketCaps : List ℚ
  volumes : List ℚ
deriving DecidableEq, Repr

/-- One entry of `assetDataMap`: the asset's series projected onto the
trimmed master calendar. -/
structure AlignedAsset where
  prices : List ℚ
  mcaps : List ℚ
  vols : List ℚ
deriving DecidableEq, Repr

/-- `SCREENING_CONFIG.MIN_AVG_DAILY_VOLUME_USD`. -/
def MIN_AVG_DAILY_VOLUME_USD : ℚ := 200000

/-! ## Statistics calculator (`calculateStdDev`, `calculateStats`) -/

/-- `calculateStdDev`: population standard deviation.  `sqrt` is the
embedding of `Math.sqrt`. -/
def calculateStdDev (sqrt : ℚ → ℚ) (arr : List ℚ) : ℚ :=
  if arr.length = 0 then 0
  else
    let mean := arr.sum / (arr.length : ℚ)
    let variance := (arr.map (fun b => (b - mean) ^ 2)).sum / (arr.length : ℚ)
    sqrt variance

/-- The day-over-day simple returns `nav[i]/nav[i-1] - 1` computed inside
the `calculateStats` loop. -/
def navDailyReturns (nav : List ℚ) : List ℚ :=
  (nav.zip (nav.drop 1)).map (fun p => p.2 / p.1 - 1)

/-- One iteration of the peak / max-drawdown loop of `calculateStats`.
The running peak starts at `-Infinity`, modelled as `none`. -/
def ddStep (state : Option ℚ × ℚ) (x : ℚ) : Option ℚ × ℚ :=
  let peak : ℚ :=
    match state.1 with
    | none => x
    | some p => if x > p then x else p
  let drawdown := x / peak - 1
  (some peak, if drawdown < state.2 then drawdown else state.2)

/-- The max-drawdown accumulator of `calculateStats`: the loop runs over
`nav[1], …, nav[len-1]` starting from `peak = -Infinity`, `maxDrawdown = 0`. -/
def maxDrawdownAux (nav : List ℚ) : ℚ :=
  ((nav.drop 1).foldl ddStep (none, 0)).2

/-- `calculateStats`.  `rpow` embeds `Math.pow` (fractional exponent),
`sqrt` embeds `Math.sqrt`. -/
def calculateStats (rpow : ℚ → ℚ → ℚ) (sqrt : ℚ → ℚ) (nav : List ℚ) :
    FinancialStats :=
  if nav.length < 2 then ⟨0, 0, 0, 0, 0⟩
  else
    let startNav := nav.getD 0 0
    let endNav := nav.getD (nav.length - 1) 0
    let cumulative_return := endNav / startNav - 1
    let dailyReturns := navDailyReturns nav
    let maxDrawdown := maxDrawdownAux nav
    let daysInPeriod : ℚ := (nav.length : ℚ)
    let annualized_return := rpow (1 + cumulative_return) (365 / daysInPeriod) - 1
    let dailyVol := calculateStdDev sqrt dailyReturns
    let annualized_volatility := dailyVol * sqrt 365
    let sharpe_ratio :=
      if annualized_volatility = 0 then 0
      else annualized_return / annualized_volatility
    ⟨cumulative_return, annualized_return, annualized_volatility,
      sharpe_ratio, maxDrawdown⟩

/-! ### Spec-side drawdown formulas -/

/-- The running-peak drawdowns of a series: entry `i` is
`l[i] / max(l[0..i]) - 1`, the peak ranging over the whole prefix up to and
including `i`. -/
def runningDds (l : List ℚ) : List ℚ :=
  (List.range l.length).map
    (fun i => l.getD i 0 / ((l.take (i + 1)).max?.getD 0) - 1)

/-- Modelled from the spec's words (claim C5): "the minimum over the series
of `(value / running-peak-so-far) - 1`", the running peak starting at
negative infinity (so the first point registers drawdown `0`, never a real
drawdown). -/
def specMaxDrawdown (nav : List ℚ) : ℚ :=
  ((runningDds nav).min?).getD 0

/-- Amended claim-C5 formula for the returned max drawdown: the first
element of the series is excluded both as a drawdown point and from the
running peak, and the minimum is taken together with `0`. -/
def specMaxDrawdownTail (nav : List ℚ) : ℚ :=
  (runningDds (nav.drop 1)).foldl min 0

/-! ## Date alignment (forward-fill onto the master calendar) -/

/-- The `dateToIdx` lookup of `runBacktest`: a JS `Map` built by inserting
`(date, index)` pairs left to right, so a later duplicate date wins. -/
def lookupIdxFrom (d : String) : Nat → List String → Option Nat → Option Nat
  | _, [], acc => acc
  | i, x :: rest, acc => lookupIdxFrom d (i + 1) rest (if x = d then some i else acc)

/-- Index of `d` in `dates` under JS `Map` semantics (last occurrence). -/
def lookupIdx (dates : List String) (d : String) : Option Nat :=
  lookupIdxFrom d 0 dates none

/-- One column of the date-alignment loop of `runBacktest`: for each master
date, push the asset's own value when the date is found, otherwise the
previously pushed value, or the column's first value when nothing has been
pushed yet.  `carry` is the last pushed value (`none` before the first
push). -/
def alignColumn (lookup : String → Option Nat) (col : List ℚ) :
    List String → Option ℚ → List ℚ
  | [], _ => []
  | date :: rest, carry =>
    let v : ℚ :=
      match lookup date with
      | some idx => col.getD idx 0
      | none =>
        match carry with
        | some c => c
        | none => col.getD 0 0
    v :: alignColumn lookup col rest (some v)

/-- The `assetDataMap` construction of `runBacktest` for one asset: its
`prices`, `marketCaps` and `volumes` projected onto the trimmed master
calendar with forward-fill. -/
def buildAssetData (data : NormalizedPriceData) (backtestDates : List String) :
    AlignedAsset :=
  let lookup := lookupIdx data.dates
  { prices := alignColumn lookup data.prices backtestDates none
    mcaps := alignColumn lookup data.marketCaps backtestDates none
    vols := alignColumn lookup data.volumes backtestDates none }

/-! ## Screening (dynamic-mode status derivation in `runBacktest`) -/

/-- The status cascade of the dynamic rebalance branch of `runBacktest`
(the same priority order as `screenAsset`). -/
def evalStatus (asset : BacktestAsset) (vol : ℚ) : InclusionStatus :=
  if asset.category = "Stablecoin" then .REJECTED_CATEGORY
  else if asset.symbol = "SOL" then .REJECTED_CATEGORY
  else if asset.solanaLaunchOrNexus = false then .REJECTED_LAUNCH
  else if asset.primaryNetworkSolana = false then .REJECTED_PRIMARY_NETWORK
  else if asset.isNative = false then .REJECTED_NATIVE
  else if vol < MIN_AVG_DAILY_VOLUME_USD then .REJECTED_VOL
  else if asset.hasUnresolvedAuditFindings = true then .REJECTED_AUDIT
  else .INCLUDED

/-- Build one `UniverseSnapshotItem` for the dynamic rebalance:
a missing `assetDataMap` entry yields an automatic `REJECTED_VOL`. -/
def evaluateAsset (asset : BacktestAsset) (dat : Option (ℚ × ℚ × ℚ)) :
    UniverseSnapshotItem :=
  match dat with
  | none =>
      ⟨asset.symbol, asset.name, 0, 0, 0, asset.isNative, .REJECTED_VOL, 0⟩
  | some (price, mcap, vol) =>
      ⟨asset.symbol, asset.name, price, mcap, vol, asset.isNative,
        evalStatus asset vol, 0⟩

/-- The `evaluatedUniverse` list of the dynamic rebalance branch.
`dataAt sym` is `assetDataMap[sym]`'s `(price, mcap, vol)` at the current
day, `none` when the symbol has no `assetDataMap` entry. -/
def dynamicEvaluated (fullUniverse : List BacktestAsset)
    (dataAt : String → Option (ℚ × ℚ × ℚ)) : List UniverseSnapshotItem :=
  fullUniverse.map (fun a => evaluateAsset a (dataAt a.symbol))

/-- The LST-candidate test: the universe-table entry with the item's symbol has
category `LST` and the item is currently `INCLUDED`. -/
def isLstIncluded (fullUniverse : List BacktestAsset)
    (u : UniverseSnapshotItem) : Bool :=
  (match fullUniverse.find? (fun a => a.symbol = u.symbol) with
   | some a => a.category = "LST"
   | none => false) && u.status = .INCLUDED

/-- In-place status mutation by symbol, as performed by the LST and
rank passes of `runBacktest` (they mutate the items of
`evaluatedUniverse` found by symbol). -/
def setStatusBySyms (syms : List String) (st : InclusionStatus)
    (l : List UniverseSnapshotItem) : List UniverseSnapshotItem :=
  l.map (fun u => if syms.contains u.symbol then { u with status := st } else u)

/-- Descending-market-cap comparator: the JS stable sort with comparator
`(a, b) => b.mcap - a.mcap`. -/
def mcapDesc (a b : UniverseSnapshotItem) : Bool :=
  b.mcap ≤ a.mcap

/-- The LST pass: when more than one LST is tentatively included, all but
the highest-market-cap one (stable order on ties) are set to
`REJECTED_CATEGORY`. -/
def lstPass (fullUniverse : List BacktestAsset)
    (evaluated : List UniverseSnapshotItem) : List UniverseSnapshotItem :=
  if 1 < (evaluated.filter (isLstIncluded fullUniverse)).length then
    setStatusBySyms
      ((((evaluated.filter (isLstIncluded fullUniverse)).mergeSort mcapDesc).drop 1).map
        (·.symbol))
      .REJECTED_CATEGORY evaluated
  else evaluated

/-- `evaluatedUniverse` after the LST pass. -/
def dynamicAfterLst (fullUniverse : List BacktestAsset)
    (dataAt : String → Option (ℚ × ℚ × ℚ)) : List UniverseSnapshotItem :=
  lstPass fullUniverse (dynamicEvaluated fullUniverse dataAt)

/-- The `candidates` list: included items sorted by descending market cap. -/
def dynamicCandidates (fullUniverse : List BacktestAsset)
    (dataAt : String → Option (ℚ × ℚ × ℚ)) : List UniverseSnapshotItem :=
  ((dynamicAfterLst fullUniverse dataAt).filter
    (fun u => u.status = .INCLUDED)).mergeSort mcapDesc

/-- The `selected` list: top `numAssets` candidates by market cap. -/
def dynamicSelected (fullUniverse : List BacktestAsset)
    (dataAt : String → Option (ℚ × ℚ × ℚ)) (numAssets : Nat) :
    List UniverseSnapshotItem :=
  (dynamicCandidates fullUniverse dataAt).take numAssets

/-! ## Weight allocation -/

/-- The clipping step of the weight loop: a raw weight strictly above
`maxWeight` is clipped to `maxWeight` and marked capped. -/
def clipEntry (maxWeight : ℚ) (w : String × ℚ) : WeightEntry :=
  if w.2 > maxWeight then ⟨w.1, w.2, maxWeight, true⟩
  else ⟨w.1, w.2, w.2, false⟩

/-- `initialWeights`: symbol paired with raw market-cap weight
(`item.mcap / totalRawMcap`). -/
def initialWeights (selected : List UniverseSnapshotItem) : List (String × ℚ) :=
  selected.map (fun item => (item.symbol, item.mcap / (selected.map (·.mcap)).sum))

/-- `weightConfig` after the clipping pass. -/
def clippedConfig (selected : List UniverseSnapshotItem) (maxWeight : ℚ) :
    List WeightEntry :=
  (initialWeights selected).map (clipEntry maxWeight)

/-- The `surplus` accumulated during the clipping pass: the sum of
`rawWeight - maxWeight` over the capped entries. -/
def surplusJS (selected : List UniverseSnapshotItem) (maxWeight : ℚ) : ℚ :=
  (((clippedConfig selected maxWeight).filter (·.capped)).map
    (fun w => w.rawWeight - maxWeight)).sum

/-- `uncappedCount`. -/
def uncappedCountJS (selected : List UniverseSnapshotItem) (maxWeight : ℚ) : Nat :=
  ((clippedConfig selected maxWeight).filter (fun w => !w.capped)).length

/-- The weight-allocation block of the dynamic rebalance:
raw market-cap weights, single clipping pass accumulating the surplus,
then one equal redistribution of the surplus over the uncapped entries
(only when there is a positive surplus and at least one uncapped entry). -/
def computeWeights (selected : List UniverseSnapshotItem) (maxWeight : ℚ) :
    List WeightEntry :=
  let weightConfig := clippedConfig selected maxWeight
  let surplus := surplusJS selected maxWeight
  if 0 < surplus then
    let uncappedCount := uncappedCountJS selected maxWeight
    if 0 < uncappedCount then
      weightConfig.map (fun w =>
        if !w.capped then { w with weight := w.weight + surplus / (uncappedCount : ℚ) }
        else w)
    else weightConfig
  else weightConfig

/-- The effect of the `weightConfig.forEach` weight write-back on one
snapshot item: the item found by symbol gets the computed weight. -/
def applyWeightEntry (weightConfig : List WeightEntry)
    (u : UniverseSnapshotItem) : UniverseSnapshotItem :=
  match weightConfig.find? (fun w => w.symbol = u.symbol) with
  | some w => { u with weight := w.weight }
  | none => u

/-- Write the computed weights back into the snapshot (the
`weightConfig.forEach` mutation, finding items by symbol). -/
def applyWeights (weightConfig : List WeightEntry)
    (evaluated : List UniverseSnapshotItem) : List UniverseSnapshotItem :=
  evaluated.map (applyWeightEntry weightConfig)

/-- The final `universeSnapshot` of a dynamic rebalance:
statuses from the LST and rank passes, weights from the allocation. -/
def dynamicSnapshot (fullUniverse : List BacktestAsset)
    (dataAt : String → Option (ℚ × ℚ × ℚ)) (numAssets : Nat) (maxWeight : ℚ) :
    List UniverseSnapshotItem :=
  applyWeights
    (computeWeights (dynamicSelected fullUniverse dataAt numAssets) maxWeight)
    (setStatusBySyms
      (((dynamicCandidates fullUniverse dataAt).drop numAssets).map (·.symbol))
      .REJECTED_RANK
      (dynamicAfterLst fullUniverse dataAt))

/-- Price fallback `assetDataMap[sym]?.prices[d] || 1` used when turning
weights into share counts. -/
def priceOr1 (dataAt : String → Option (ℚ × ℚ × ℚ)) (sym : String) : ℚ :=
  match dataAt sym with
  | some (p, _, _) => if p = 0 then 1 else p
  | none => 1

/-- The `currentPortfolio` built at a dynamic rebalance:
`shares = weight / price`. -/
def dynamicPortfolio (fullUniverse : List BacktestAsset)
    (dataAt : String → Option (ℚ × ℚ × ℚ)) (numAssets : Nat) (maxWeight : ℚ) :
    List PortfolioEntry :=
  (computeWeights (dynamicSelected fullUniverse dataAt numAssets) maxWeight).map
    (fun w => ⟨w.symbol, w.weight / priceOr1 dataAt w.symbol, w.weight⟩)

/-- The `RebalanceEvent` appended at a dynamic rebalance. -/
def dynamicEvent (fullUniverse : List BacktestAsset)
    (dataAt : String → Option (ℚ × ℚ × ℚ)) (numAssets : Nat) (maxWeight : ℚ)
    (date : String) : RebalanceEvent :=
  ⟨date, dynamicSnapshot fullUniverse dataAt numAssets maxWeight,
    ((dynamicSelected fullUniverse dataAt numAssets).map (·.mcap)).sum, 0⟩

/-! ## The simulation loop -/

/-- `assetDataMap[sym]` sampled at day `d`. -/
def dataAtDay (dataMap : String → Option AlignedAsset) (d : Nat) :
    String → Option (ℚ × ℚ × ℚ) :=
  fun sym =>
    (dataMap sym).map (fun a => (a.prices.getD d 0, a.mcaps.getD d 0, a.vols.getD d 0))

/-- The fixed-weight portfolio built on day 0 when `config.fixedWeights`
is present: entries of the map whose symbol has price data, weights taken
verbatim, `shares = weight / (price || 1)`. -/
def fixedPortfolio (fw : List (String × ℚ))
    (dataMap : String → Option AlignedAsset) : List PortfolioEntry :=
  let fwConfig := fw.filter (fun w => (dataMap w.1).isSome)
  fwConfig.map (fun w =>
    ⟨w.1, w.2 / priceOr1 (dataAtDay dataMap 0) w.1, w.2⟩)

/-- The drift step: revalue shares at day `d` prices and renormalize
weights by total portfolio value (zero weight when the total is not
positive). -/
def driftStep (dataMap : String → Option AlignedAsset) (d : Nat)
    (port : List PortfolioEntry) : List PortfolioEntry :=
  let totalVal := (port.map (fun p => p.shares * priceOr1 (dataAtDay dataMap d) p.symbol)).sum
  port.map (fun p =>
    let val := p.shares * priceOr1 (dataAtDay dataMap d) p.symbol
    { p with weight := if 0 < totalVal then val / totalVal else 0 })

/-- Backtest configuration fields used by the simulation loop. -/
structure SimConfig where
  fixedWeights : Option (List (String × ℚ))
  numAssets : Nat
  maxWeight : ℚ
  rebalanceIntervalDays : Nat
deriving Repr

/-- One iteration of the day loop of `runBacktest`, restricted to the
portfolio state.  On rebalance days (`d % interval == 0 || d == 0`) the
fixed branch only fires at `d = 0`; dynamic mode rebuilds the portfolio;
on other days only dynamic mode drifts. -/
def stepPortfolio (cfg : SimConfig) (fullUniverse : List BacktestAsset)
    (dataMap : String → Option AlignedAsset) (d : Nat)
    (port : List PortfolioEntry) : List PortfolioEntry :=
  if d % cfg.rebalanceIntervalDays = 0 ∨ d = 0 then
    match cfg.fixedWeights with
    | some fw => if d = 0 then fixedPortfolio fw dataMap else port
    | none =>
        dynamicPortfolio fullUniverse (dataAtDay dataMap d) cfg.numAssets cfg.maxWeight
  else
    match cfg.fixedWeights with
    | some _ => port
    | none => driftStep dataMap d port

/-- The portfolio after the day loop has processed days `0 … d`
(starting from the empty portfolio). -/
def portfolioAfter (cfg : SimConfig) (fullUniverse : List BacktestAsset)
    (dataMap : String → Option AlignedAsset) : Nat → List PortfolioEntry
  | 0 => stepPortfolio cfg fullUniverse dataMap 0 []
  | d + 1 => stepPortfolio cfg fullUniverse dataMap (d + 1)
      (portfolioAfter cfg fullUniverse dataMap d)

/-- `weightHistoryMap[sym][d]` as recorded at the end of day `d`: the
map has one zero-initialised row per universe symbol, and the day loop
overwrites index `d` with each portfolio entry's weight in order (a later
duplicate symbol wins). -/
def recordedWeight (fullUniverse : List BacktestAsset)
    (port : List PortfolioEntry) (sym : String) : ℚ :=
  if (fullUniverse.map (·.symbol)).contains sym then
    match (port.filter (fun p => p.symbol = sym)).getLast? with
    | some p => p.weight
    | none => 0
  else 0

/-! ## Index NAV -/

/-- `assetDataMap[sym]?.prices[d]`, `0` when absent. -/
def priceAt (dataMap : String → Option AlignedAsset) (sym : String) (d : Nat) : ℚ :=
  match dataMap sym with
  | some a => a.prices.getD d 0
  | none => 0

/-- The daily index return at day `d ≥ 1`: previous-day weights times
day-over-day returns, skipping zero weights and zero (or missing)
prices exactly as the truthiness guards of `runBacktest` do. -/
def dailyRetAt (activeSymbols : List String) (hist : String → Nat → ℚ)
    (dataMap : String → Option AlignedAsset) (d : Nat) : ℚ :=
  (activeSymbols.map (fun sym =>
    let w := hist sym (d - 1)
    if 0 < w then
      if priceAt dataMap sym d ≠ 0 ∧ priceAt dataMap sym (d - 1) ≠ 0 then
        w * (priceAt dataMap sym d / priceAt dataMap sym (d - 1) - 1)
      else 0
    else 0)).sum

/-- The index NAV series of `runBacktest`: starts at `100`, then
`nav[d] = nav[d-1] * (1 + dailyRet(d))`. -/
def indexNavAt (activeSymbols : List String) (hist : String → Nat → ℚ)
    (dataMap : String → Option AlignedAsset) : Nat → ℚ
  | 0 => 100
  | d + 1 => indexNavAt activeSymbols hist dataMap d *
      (1 + dailyRetAt activeSymbols hist dataMap (d + 1))

/-! ## Spec-side screening order (claim C2) -/

/-- Modelled from the spec's words (claim C2): the ordered
`(failing-predicate, rejection-status)` list of the six screening
criteria. -/
def specCriteria (asset : BacktestAsset) (vol : ℚ) :
    List (Bool × InclusionStatus) :=
  [ (asset.category = "Stablecoin" || asset.symbol = "SOL", .REJECTED_CATEGORY),
    (!asset.solanaLaunchOrNexus, .REJECTED_LAUNCH),
    (!asset.primaryNetworkSolana, .REJECTED_PRIMARY_NETWORK),
    (!asset.isNative, .REJECTED_NATIVE),
    (decide (vol < MIN_AVG_DAILY_VOLUME_USD), .REJECTED_VOL),
    (asset.hasUnresolvedAuditFindings, .REJECTED_AUDIT) ]

/-- Modelled from the spec's words (claim C2): the first failing
criterion determines the status, default `INCLUDED`. -/
def firstFailing : List (Bool × InclusionStatus) → InclusionStatus
  | [] => .INCLUDED
  | (b, st) :: rest => if b then st else firstFailing rest

/-! ## Spec-side weight allocation characterization (claim C1) -/

/-- Raw weight of one selected asset: market cap over total selected
market cap. -/
def rawWeight (selected : List UniverseSnapshotItem)
    (u : UniverseSnapshotItem) : ℚ :=
  u.mcap / (selected.map (·.mcap)).sum

/-- Total clipped surplus: the amount removed from all raw weights that
strictly exceed `maxWeight`. -/
def surplusOf (selected : List UniverseSnapshotItem) (maxWeight : ℚ) : ℚ :=
  ((selected.filter (fun u => maxWeight < rawWeight selected u)).map
    (fun u => rawWeight selected u - maxWeight)).sum

/-- Number of uncapped selected assets (raw weight not above
`maxWeight`). -/
def uncappedCountOf (selected : List UniverseSnapshotItem) (maxWeight : ℚ) : Nat :=
  (selected.filter (fun u => ¬ maxWeight < rawWeight selected u)).length

/-- The weight each selected asset ends up with, per the claimed
single-pass policy: clipped assets get exactly `maxWeight`; uncapped
assets get raw weight plus an equal share of the surplus (even when that
exceeds `maxWeight`). -/
def specAllocEntry (selected : List UniverseSnapshotItem) (maxWeight : ℚ)
    (u : UniverseSnapshotItem) : WeightEntry :=
  if maxWeight < rawWeight selected u then
    ⟨u.symbol, rawWeight selected u, maxWeight, true⟩
  else
    ⟨u.symbol, rawWeight selected u,
      rawWeight selected u +
        surplusOf selected maxWeight / (uncappedCountOf selected maxWeight : ℚ),
      false⟩

/-- Modelled from the spec's words (claim C9): what the aligned column
must look like — the asset's own value when the master date exists in
its series, otherwise the previously projected value, and the asset's
first known value on a leading gap; every master date gets a value. -/
def forwardFillSpec (orig : List ℚ) (dates : List String) (bd : List String)
    (out : List ℚ) : Prop :=
  out.length = bd.length ∧
  ∀ i, i < bd.length →
    (∀ j, j < dates.length → dates.getD j "" = bd.getD i "" →
      out.getD i 0 = orig.getD j 0) ∧
    (bd.getD i "" ∉ dates →
      (i = 0 → out.getD i 0 = orig.getD 0 0) ∧
      (∀ k, i = k + 1 → out.getD i 0 = out.getD k 0))

/-! ### Drawdown lemmas -/

lemma ddFold_fst (l : List ℚ) :
    ∀ (p a : ℚ), ((l.foldl ddStep (some p, a)).1 = some (l.foldl max p)) := by
  induction l with
  | nil => intro p a; rfl
  | cons x t ih =>
      intro p a
      have hm : (if x > p then x else p) = max p x := by
        rcases le_or_lt x p with h | h
        · simp [max_eq_left h, not_lt.mpr h]
        · simp [max_eq_right h.le, h]
      have hstep : ddStep (some p, a) x =
          (some (max p x), if x / max p x - 1 < a then x / max p x - 1 else a) := by
        simp only [ddStep, hm]
      simp only [List.foldl_cons, hstep, ih]

lemma max?_cons_foldl (x : ℚ) (t : List ℚ) : (x :: t).max? = some (t.foldl max x) :=
  rfl

lemma ddFold_fst_none (l : List ℚ) (a : ℚ) :
    ((l.foldl ddStep (none, a)).1 = l.max?) := by
  cases l with
  | nil => rfl
  | cons x t =>
      have : ddStep (none, a) x = (some x, if x / x - 1 < a then x / x - 1 else a) := by
        simp [ddStep]
      simp only [List.foldl_cons, this, ddFold_fst, max?_cons_foldl]

lemma if_lt_eq_min (a d : ℚ) : (if d < a then d else a) = min a d := by
  rcases lt_or_le d a with h | h
  · simp [h, min_eq_right h.le]
  · simp [not_lt.mpr h, min_eq_left h]

lemma max?_append_singleton (t : List ℚ) (x : ℚ) :
    (t ++ [x]).max? = some (match t.max? with | none => x | some p => max p x) := by
  cases t with
  | nil => rfl
  | cons y t' =>
      simp only [List.cons_append, max?_cons_foldl, List.foldl_append, List.foldl_cons,
        List.foldl_nil]

lemma ddFold_snd_append (t : List ℚ) (x : ℚ) :
    ((t ++ [x]).foldl ddStep (none, 0)).2 =
      min ((t.foldl ddStep (none, 0)).2) (x / ((t ++ [x]).max?.getD 0) - 1) := by
  rw [List.foldl_append]
  rcases hmax : t.max? with _ | p
  · have ht : t = [] := List.max?_eq_none_iff.mp hmax
    subst ht
    simp only [List.nil_append, List.foldl_nil, List.foldl_cons, ddStep, if_lt_eq_min]
    rfl
  · have hfst : (t.foldl ddStep (none, 0)).1 = some p := by
      rw [ddFold_fst_none, hmax]
    have hm' : ((t ++ [x]).max?.getD 0) = max p x := by
      rw [max?_append_singleton, hmax]
      rfl
    rw [hm']
    simp only [List.foldl_cons, List.foldl_nil, ddStep, hfst]
    have hpk : (if x > p then x else p) = max p x := by
      rcases le_or_lt x p with h | h
      · simp [max_eq_left h, not_lt.mpr h]
      · simp [max_eq_right h.le, h]
    simp only [hpk, if_lt_eq_min]

lemma runningDds_append (t : List ℚ) (x : ℚ) :
    runningDds (t ++ [x]) =
      runningDds t ++ [x / ((t ++ [x]).max?.getD 0) - 1] := by
  have h1 : (t ++ [x]).getD t.length 0 = x := by
    rw [List.getD_append_right _ _ _ _ (le_refl _)]
    simp
  have h2 : List.take (t.length + 1) (t ++ [x]) = t ++ [x] :=
    List.take_of_length_le (by simp)
  simp only [runningDds, List.length_append, List.length_cons, List.length_nil,
    Nat.zero_add, List.range_succ, List.map_append, List.map_cons, List.map_nil, h1, h2]
  congr 1
  apply List.map_congr_left
  intro i hi
  have hi' : i < t.length := List.mem_range.mp hi
  rw [List.getD_append _ _ _ _ hi', List.take_append_of_le_length hi']

lemma foldl_min_le_init (l : List ℚ) : ∀ a : ℚ, l.foldl min a ≤ a := by
  induction l with
  | nil => intro a; simp
  | cons x t ih =>
      intro a
      exact le_trans (ih (min a x)) (min_le_left _ _)

lemma maxDrawdownAux_eq_specTail (nav : List ℚ) :
    maxDrawdownAux nav = specMaxDrawdownTail nav := by
  unfold maxDrawdownAux specMaxDrawdownTail
  induction nav.drop 1 using List.reverseRecOn with
  | nil => rfl
  | append_singleton t x ih =>
      rw [ddFold_snd_append, ih, runningDds_append, List.foldl_append]
      rfl

/-! ### Weight-allocation lemmas -/

lemma clipEntry_capped (mw : ℚ) (w : String × ℚ) :
    (clipEntry mw w).capped = decide (mw < w.2) := by
  unfold clipEntry
  split <;> simp_all

lemma clipEntry_raw (mw : ℚ) (w : String × ℚ) :
    (clipEntry mw w).rawWeight = w.2 := by
  unfold clipEntry
  split <;> rfl

lemma clippedConfig_eq (selected : List UniverseSnapshotItem) (mw : ℚ) :
    clippedConfig selected mw =
      selected.map (fun u => clipEntry mw (u.symbol, rawWeight selected u)) := by
  unfold clippedConfig initialWeights
  rw [List.map_map]
  rfl

lemma surplusJS_eq (selected : List UniverseSnapshotItem) (mw : ℚ) :
    surplusJS selected mw = surplusOf selected mw := by
  unfold surplusJS surplusOf
  rw [clippedConfig_eq, List.filter_map, List.map_map]
  have hfil :
      List.filter
        ((fun w => w.capped) ∘ fun u => clipEntry mw (u.symbol, rawWeight selected u))
        selected
      = List.filter (fun u => decide (mw < rawWeight selected u)) selected := by
    apply List.filter_congr
    intro u _
    simp [Function.comp, clipEntry_capped]
  rw [hfil]
  congr 1
  apply List.map_congr_left
  intro u _
  simp [Function.comp, clipEntry_raw]

lemma uncappedCountJS_eq (selected : List UniverseSnapshotItem) (mw : ℚ) :
    uncappedCountJS selected mw = uncappedCountOf selected mw := by
  unfold uncappedCountJS uncappedCountOf
  rw [clippedConfig_eq, List.filter_map, List.length_map]
  congr 1
  apply List.filter_congr
  intro u _
  simp only [Function.comp, clipEntry_capped]
  rw [← decide_not, decide_eq_decide]

lemma surplusOf_nonneg (selected : List UniverseSnapshotItem) (mw : ℚ) :
    0 ≤ surplusOf selected mw := by
  apply List.sum_nonneg
  intro x hx
  obtain ⟨u, hu, rfl⟩ := List.mem_map.mp hx
  have hm := List.mem_filter.mp hu
  have hlt : mw < rawWeight selected u := by simpa using hm.2
  linarith

lemma computeWeights_eq (selected : List UniverseSnapshotItem) (mw : ℚ) :
    computeWeights selected mw = selected.map (specAllocEntry selected mw) := by
  unfold computeWeights
  rw [surplusJS_eq, uncappedCountJS_eq]
  by_cases hs : 0 < surplusOf selected mw
  · rw [if_pos hs]
    by_cases hk : 0 < uncappedCountOf selected mw
    · rw [if_pos hk, clippedConfig_eq, List.map_map]
      apply List.map_congr_left
      intro u _
      simp only [Function.comp]
      unfold specAllocEntry clipEntry
      by_cases h : mw < rawWeight selected u
      · simp [h]
      · simp [h]
    · rw [if_neg hk]
      have hk0 : uncappedCountOf selected mw = 0 := Nat.eq_zero_of_not_pos hk
      have hall : ∀ u ∈ selected, mw < rawWeight selected u := by
        intro u hu
        have hnil := List.length_eq_zero.mp hk0
        have := List.filter_eq_nil_iff.mp hnil u hu
        simpa using this
      rw [clippedConfig_eq]
      apply List.map_congr_left
      intro u hu
      unfold specAllocEntry clipEntry
      simp [hall u hu]
  · rw [if_neg hs]
    have hS0 : surplusOf selected mw = 0 :=
      le_antisymm (not_lt.mp hs) (surplusOf_nonneg _ _)
    rw [clippedConfig_eq]
    apply List.map_congr_left
    intro u _
    unfold specAllocEntry clipEntry
    by_cases h : mw < rawWeight selected u
    · simp [h]
    · simp [h, hS0]

/-! ## Claim C1 -/

/-- C1: in dynamic mode, for every non-empty selected set with positive
market caps and every `maxWeight`, the allocation computes raw weights as
`mcap / total selected mcap`, clips raw weights strictly above `maxWeight`
to exactly `maxWeight`, and adds `surplus / uncappedCount` to every
uncapped asset in a single pass with no re-clipping, so an uncapped
asset's final weight is `rawWeight + surplus / uncappedCount` even when
that exceeds `maxWeight`. -/
theorem claim_C1 (selected : List UniverseSnapshotItem) (maxWeight : ℚ)
    (hne : selected ≠ []) (hpos : ∀ u ∈ selected, 0 < u.mcap) :
    computeWeights selected maxWeight =
      selected.map (specAllocEntry selected maxWeight) :=
  computeWeights_eq selected maxWeight

/-- Witness for C1, at the spec's concrete scenario: assets `A` (mcap 300)
and `B` (mcap 100) with `maxWeight = 0.6` get final weights `0.6` and
`0.40`. -/
theorem claim_C1_witness :
    (([⟨"A", "A", 1, 300, 300000, true, .INCLUDED, 0⟩,
       ⟨"B", "B", 1, 100, 300000, true, .INCLUDED, 0⟩] :
        List UniverseSnapshotItem) ≠ []) ∧
    (∀ u ∈ ([⟨"A", "A", 1, 300, 300000, true, .INCLUDED, 0⟩,
             ⟨"B", "B", 1, 100, 300000, true, .INCLUDED, 0⟩] :
        List UniverseSnapshotItem), 0 < u.mcap) ∧
    computeWeights
        [⟨"A", "A", 1, 300, 300000, true, .INCLUDED, 0⟩,
         ⟨"B", "B", 1, 100, 300000, true, .INCLUDED, 0⟩] (3/5) =
      ([⟨"A", "A", 1, 300, 300000, true, .INCLUDED, 0⟩,
        ⟨"B", "B", 1, 100, 300000, true, .INCLUDED, 0⟩] :
          List UniverseSnapshotItem).map
        (specAllocEntry
          [⟨"A", "A", 1, 300, 300000, true, .INCLUDED, 0⟩,
           ⟨"B", "B", 1, 100, 300000, true, .INCLUDED, 0⟩] (3/5)) ∧
    (computeWeights
        [⟨"A", "A", 1, 300, 300000, true, .INCLUDED, 0⟩,
         ⟨"B", "B", 1, 100, 300000, true, .INCLUDED, 0⟩] (3/5)).map
      (·.weight) = [3/5, 2/5] :=
  ⟨by simp, by with_unfolding_all decide,
   claim_C1 _ _ (by simp) (by with_unfolding_all decide),
   by with_unfolding_all decide⟩

/-! ## Claim C2 -/

/-- C2: on a dynamic-mode rebalance date, the status recorded in the
universe snapshot for an asset with market data is determined by the
first failing criterion in the fixed priority order — (1) stablecoin
category or benchmark symbol, (2) launch-or-nexus, (3) primary network,
(4) native, (5) volume below 200000, (6) unresolved audit — defaulting
to `INCLUDED`; a later criterion's rejection kind is never reported when
an earlier criterion already failed. -/
theorem claim_C2 (fullUniverse : List BacktestAsset)
    (dataAt : String → Option (ℚ × ℚ × ℚ)) (a : BacktestAsset)
    (ha : a ∈ fullUniverse) (p m v : ℚ)
    (hd : dataAt a.symbol = some (p, m, v)) :
    evaluateAsset a (dataAt a.symbol) ∈ dynamicEvaluated fullUniverse dataAt ∧
    (evaluateAsset a (dataAt a.symbol)).status = firstFailing (specCriteria a v) := by
  refine ⟨List.mem_map_of_mem _ ha, ?_⟩
  rw [hd]
  by_cases h1 : a.category = "Stablecoin" <;>
    by_cases h2 : a.symbol = "SOL" <;>
    cases hl : a.solanaLaunchOrNexus <;>
    cases hp : a.primaryNetworkSolana <;>
    cases hn : a.isNative <;>
    by_cases hv : v < MIN_AVG_DAILY_VOLUME_USD <;>
    cases haud : a.hasUnresolvedAuditFindings <;>
    simp [evaluateAsset, evalStatus, specCriteria, firstFailing,
      h1, h2, hl, hp, hn, hv, haud]

/-- Witness for C2: a concrete stablecoin asset is recorded as
`REJECTED_CATEGORY`, matching the first-failing-criterion order. -/
theorem claim_C2_witness :
    ((⟨"USDC", "USD Coin", true, "Stablecoin", true, true, false⟩ : BacktestAsset) ∈
      ([⟨"USDC", "USD Coin", true, "Stablecoin", true, true, false⟩] :
        List BacktestAsset)) ∧
    ((fun s => if s = "USDC" then some ((1 : ℚ), 1000000, 500000) else none)
        ("USDC" : String) = some ((1 : ℚ), 1000000, 500000)) ∧
    (evaluateAsset ⟨"USDC", "USD Coin", true, "Stablecoin", true, true, false⟩
        ((fun s => if s = "USDC" then some ((1 : ℚ), 1000000, 500000) else none)
          "USDC") ∈
      dynamicEvaluated [⟨"USDC", "USD Coin", true, "Stablecoin", true, true, false⟩]
        (fun s => if s = "USDC" then some ((1 : ℚ), 1000000, 500000) else none)) ∧
    (evaluateAsset ⟨"USDC", "USD Coin", true, "Stablecoin", true, true, false⟩
        ((fun s => if s = "USDC" then some ((1 : ℚ), 1000000, 500000) else none)
          "USDC")).status =
      firstFailing (specCriteria
        ⟨"USDC", "USD Coin", true, "Stablecoin", true, true, false⟩ 500000) := by
  refine ⟨List.mem_singleton.mpr rfl, rfl, ?_, ?_⟩
  · exact (claim_C2 [⟨"USDC", "USD Coin", true, "Stablecoin", true, true, false⟩]
      (fun s => if s = "USDC" then some ((1 : ℚ), 1000000, 500000) else none)
      ⟨"USDC", "USD Coin", true, "Stablecoin", true, true, false⟩
      (List.mem_singleton.mpr rfl) 1 1000000 500000 rfl).1
  · exact (claim_C2 [⟨"USDC", "USD Coin", true, "Stablecoin", true, true, false⟩]
      (fun s => if s = "USDC" then some ((1 : ℚ), 1000000, 500000) else none)
      ⟨"USDC", "USD Coin", true, "Stablecoin", true, true, false⟩
      (List.mem_singleton.mpr rfl) 1 1000000 500000 rfl).2

/-! ## Claim C5 -/

/-- C5 (amended): for every series of length at least 2 the returned max
drawdown equals the minimum, together with 0, of
`value / running-peak - 1` over the series *excluding its first element*,
with the running peak also ranging only over the elements after the
first; the result is never positive. -/
theorem claim_C5 (rpow : ℚ → ℚ → ℚ) (sqrt : ℚ → ℚ) (nav : List ℚ)
    (h : 2 ≤ nav.length) :
    (calculateStats rpow sqrt nav).max_drawdown = specMaxDrawdownTail nav ∧
    (calculateStats rpow sqrt nav).max_drawdown ≤ 0 := by
  have hmd : (calculateStats rpow sqrt nav).max_drawdown = maxDrawdownAux nav := by
    unfold calculateStats
    rw [if_neg (Nat.not_lt.mpr h)]
  rw [hmd, maxDrawdownAux_eq_specTail]
  exact ⟨rfl, foldl_min_le_init _ _⟩

/-- Witness for C5, at the spec's concrete scenario `[100, 110, 99]`:
cumulative return `-1/100`, max drawdown `99/110 - 1 = -1/10`. -/
theorem claim_C5_witness :
    2 ≤ ([100, 110, 99] : List ℚ).length ∧
    (calculateStats (fun _ _ => 0) (fun _ => 0) [100, 110, 99]).max_drawdown =
      specMaxDrawdownTail [100, 110, 99] ∧
    (calculateStats (fun _ _ => 0) (fun _ => 0) [100, 110, 99]).max_drawdown ≤ 0 ∧
    (calculateStats (fun _ _ => 0) (fun _ => 0) [100, 110, 99]).max_drawdown =
      99 / 110 - 1 ∧
    (calculateStats (fun _ _ => 0) (fun _ => 0) [100, 110, 99]).cumulative_return =
      -(1 / 100) :=
  ⟨by decide, (claim_C5 _ _ _ (by decide)).1, (claim_C5 _ _ _ (by decide)).2,
   by with_unfolding_all decide, by with_unfolding_all decide⟩

/-- Counterexample to C5 as stated: for the series `[100, 90, 95]` the
code returns max drawdown `0` (the loop's running peak never sees the
first element `100`), while the claimed formula — minimum over the whole
series of `value / running-peak-so-far - 1` with the peak starting at
negative infinity — yields `-1/10`. -/
theorem claim_C5_counterexample :
    (calculateStats (fun _ _ => 0) (fun _ => 0) [100, 90, 95]).max_drawdown = 0 ∧
    specMaxDrawdown [100, 90, 95] = -(1 / 10) ∧
    (calculateStats (fun _ _ => 0) (fun _ => 0) [100, 90, 95]).max_drawdown ≠
      specMaxDrawdown [100, 90, 95] := by
  refine ⟨?_, ?_, ?_⟩ <;> with_unfolding_all decide

/-! ## Claim C8 -/

/-- C8: for every input series of length below 2 the calculator returns
all five fields equal to 0, and whenever the daily-return standard
deviation is exactly 0 the returned Sharpe ratio is 0. -/
theorem claim_C8 (rpow : ℚ → ℚ → ℚ) (sqrt : ℚ → ℚ) (nav : List ℚ) :
    (nav.length < 2 → calculateStats rpow sqrt nav = ⟨0, 0, 0, 0, 0⟩) ∧
    (calculateStdDev sqrt (navDailyReturns nav) = 0 →
      (calculateStats rpow sqrt nav).sharpe_ratio = 0) := by
  constructor
  · intro h
    unfold calculateStats
    rw [if_pos h]
  · intro h
    unfold calculateStats
    by_cases hl : nav.length < 2
    · rw [if_pos hl]
    · rw [if_neg hl]
      simp [h]

/-- Witness for C8: the singleton series `[5]` gets the all-zero stats,
and the constant series `[1, 1, 1]` has zero daily-return standard
deviation and Sharpe ratio 0. -/
theorem claim_C8_witness :
    ([(5 : ℚ)] : List ℚ).length < 2 ∧
    calculateStats (fun _ _ => 0) (fun _ => 0) [5] = ⟨0, 0, 0, 0, 0⟩ ∧
    calculateStdDev (fun _ => 0) (navDailyReturns [1, 1, 1]) = 0 ∧
    (calculateStats (fun _ _ => 0) (fun _ => 0) [1, 1, 1]).sharpe_ratio = 0 :=
  ⟨by decide, (claim_C8 _ _ _).1 (by decide),
   by with_unfolding_all decide, (claim_C8 _ _ _).2 (by with_unfolding_all decide)⟩

/-! ### Date-alignment lemmas (claim C9) -/

lemma lookupIdxFrom_shift (d : String) (rest : List String) :
    ∀ (i : Nat) (acc : Option Nat),
      lookupIdxFrom d i rest acc =
        match lookupIdx rest d with
        | some j => some (i + j)
        | none => acc := by
  induction rest with
  | nil => intro i acc; rfl
  | cons x r ih =>
      intro i acc
      show lookupIdxFrom d (i + 1) r (if x = d then some i else acc) = _
      rw [ih]
      have hcons : lookupIdx (x :: r) d =
          match lookupIdx r d with
          | some j => some (j + 1)
          | none => if x = d then some 0 else none := by
        show lookupIdxFrom d 1 r (if x = d then some 0 else none) = _
        rw [ih]
        cases lookupIdx r d <;> simp [Nat.add_comm]
      rw [hcons]
      cases hr : lookupIdx r d with
      | some j => simp [Nat.add_assoc, Nat.add_comm 1 j]
      | none =>
          by_cases hx : x = d <;> simp [hx]

lemma lookupIdx_cons (x d : String) (r : List String) :
    lookupIdx (x :: r) d =
      match lookupIdx r d with
      | some j => some (j + 1)
      | none => if x = d then some 0 else none := by
  show lookupIdxFrom d 1 r (if x = d then some 0 else none) = _
  rw [lookupIdxFrom_shift]
  cases lookupIdx r d <;> simp [Nat.add_comm]

lemma lookupIdx_getD (dates : List String) (d : String) :
    ∀ j, lookupIdx dates d = some j → j < dates.length ∧ dates.getD j "" = d := by
  induction dates with
  | nil => intro j h; exact absurd h (by simp [lookupIdx, lookupIdxFrom])
  | cons x r ih =>
      intro j h
      rw [lookupIdx_cons] at h
      cases hr : lookupIdx r d with
      | some k =>
          rw [hr] at h
          have hjk : j = k + 1 := by
            simpa using h.symm
          obtain ⟨hk1, hk2⟩ := ih k hr
          subst hjk
          refine ⟨by simpa using hk1, ?_⟩
          simpa [List.getD_cons_succ] using hk2
      | none =>
          rw [hr] at h
          by_cases hx : x = d
          · have hj0 : j = 0 := by simpa [hx] using h.symm
            subst hj0
            exact ⟨by simp, by simpa [List.getD_cons_zero] using hx⟩
          · exact absurd h (by simp [hx])

lemma lookupIdx_isSome_of_mem (dates : List String) (d : String)
    (hmem : d ∈ dates) : (lookupIdx dates d).isSome := by
  induction dates with
  | nil => cases hmem
  | cons x r ih =>
      rw [lookupIdx_cons]
      cases hr : lookupIdx r d with
      | some k => simp
      | none =>
          rcases List.mem_cons.mp hmem with hx | hmem'
          · simp [hx.symm]
          · have := ih hmem'
            rw [hr] at this
            cases this

lemma lookupIdx_of_nodup (dates : List String) (hnd : dates.Nodup) (j : Nat)
    (hj : j < dates.length) (d : String) (hd : dates.getD j "" = d) :
    lookupIdx dates d = some j := by
  have hmem : d ∈ dates := by
    rw [← hd, List.getD_eq_getElem _ _ hj]
    exact List.getElem_mem hj
  obtain ⟨j0, hj0⟩ := Option.isSome_iff_exists.mp (lookupIdx_isSome_of_mem dates d hmem)
  obtain ⟨hlt0, hget0⟩ := lookupIdx_getD dates d j0 hj0
  have : j0 = j := by
    have hgg : dates[j0] = dates[j] := by
      rw [← List.getD_eq_getElem dates "" hlt0, ← List.getD_eq_getElem dates "" hj,
        hget0, hd]
    exact (hnd.getElem_inj_iff).mp hgg
  rw [hj0, this]

lemma alignColumn_length (lookup : String → Option Nat) (col : List ℚ) :
    ∀ (ds : List String) (carry : Option ℚ),
      (alignColumn lookup col ds carry).length = ds.length := by
  intro ds
  induction ds with
  | nil => intro carry; rfl
  | cons date rest ih => intro carry; simp [alignColumn, ih]

lemma alignColumn_getD (lookup : String → Option Nat) (col : List ℚ) :
    ∀ (ds : List String) (carry : Option ℚ) (i : Nat), i < ds.length →
      (alignColumn lookup col ds carry).getD i 0 =
        match lookup (ds.getD i "") with
        | some idx => col.getD idx 0
        | none =>
          if i = 0 then
            (match carry with | some c => c | none => col.getD 0 0)
          else (alignColumn lookup col ds carry).getD (i - 1) 0 := by
  intro ds
  induction ds with
  | nil => intro carry i hi; cases hi
  | cons date rest ih =>
      intro carry i hi
      match i with
      | 0 =>
          show (alignColumn lookup col (date :: rest) carry).getD 0 0 = _
          simp only [alignColumn, List.getD_cons_zero]
          cases hl : lookup date <;> simp [hl]
      | Nat.succ k =>
          have hk : k < rest.length := by
            simpa using Nat.lt_of_succ_lt_succ hi
          show (alignColumn lookup col (date :: rest) carry).getD (k + 1) 0 = _
          simp only [alignColumn, List.getD_cons_succ]
          rw [ih _ k hk]
          cases hl : lookup (rest.getD k "") with
          | some idx => simp [List.getD_cons_succ]
          | none =>
              simp only [List.getD_cons_succ]
              match k with
              | 0 => simp [alignColumn]
              | Nat.succ k2 => simp [alignColumn, List.getD_cons_succ]

lemma alignColumn_forwardFillSpec (dates : List String) (hnd : dates.Nodup)
    (col : List ℚ) (bd : List String) :
    forwardFillSpec col dates bd (alignColumn (lookupIdx dates) col bd none) := by
  constructor
  · exact alignColumn_length _ _ _ _
  · intro i hi
    constructor
    · intro j hj hje
      have hlk : lookupIdx dates (bd.getD i "") = some j :=
        lookupIdx_of_nodup dates hnd j hj _ hje
      rw [alignColumn_getD _ _ _ _ i hi, hlk]
    · intro hnm
      have hlk : lookupIdx dates (bd.getD i "") = none := by
        cases hl : lookupIdx dates (bd.getD i "") with
        | none => rfl
        | some j =>
            obtain ⟨hj1, hj2⟩ := lookupIdx_getD dates _ j hl
            have hmem : bd.getD i "" ∈ dates := by
              rw [← hj2, List.getD_eq_getElem _ _ hj1]
              exact List.getElem_mem hj1
            exact absurd hmem hnm
      constructor
      · intro h0
        subst h0
        rw [alignColumn_getD _ _ _ _ 0 hi, hlk]
        simp
      · intro k hik
        subst hik
        rw [alignColumn_getD _ _ _ _ (k + 1) hi, hlk]
        simp

/-! ## Claim C9 -/

/-- C9: for every asset series and every trimmed master calendar, the
date-alignment step produces a price, market-cap and volume column of the
calendar's length where each entry is the asset's own value when the date
exists in its series, otherwise the previously projected value, and the
asset's first known value on a leading gap — missing dates never produce
an error value. -/
theorem claim_C9 (data : NormalizedPriceData) (backtestDates : List String)
    (hnd : data.dates.Nodup) :
    forwardFillSpec data.prices data.dates backtestDates
      (buildAssetData data backtestDates).prices ∧
    forwardFillSpec data.marketCaps data.dates backtestDates
      (buildAssetData data backtestDates).mcaps ∧
    forwardFillSpec data.volumes data.dates backtestDates
      (buildAssetData data backtestDates).vols :=
  ⟨alignColumn_forwardFillSpec _ hnd _ _,
   alignColumn_forwardFillSpec _ hnd _ _,
   alignColumn_forwardFillSpec _ hnd _ _⟩

/-- Witness for C9: an asset whose series starts only at the second
master date is forward-filled with its first known value on the leading
gap and with the carried value on later gaps. -/
theorem claim_C9_witness :
    (["d1", "d3"] : List String).Nodup ∧
    (forwardFillSpec [(10 : ℚ), 30] ["d1", "d3"] ["d0", "d1", "d2", "d3"]
      (buildAssetData ⟨["d1", "d3"], [10, 30], [1, 3], [100, 300]⟩
        ["d0", "d1", "d2", "d3"]).prices ∧
     forwardFillSpec [(1 : ℚ), 3] ["d1", "d3"] ["d0", "d1", "d2", "d3"]
      (buildAssetData ⟨["d1", "d3"], [10, 30], [1, 3], [100, 300]⟩
        ["d0", "d1", "d2", "d3"]).mcaps ∧
     forwardFillSpec [(100 : ℚ), 300] ["d1", "d3"] ["d0", "d1", "d2", "d3"]
      (buildAssetData ⟨["d1", "d3"], [10, 30], [1, 3], [100, 300]⟩
        ["d0", "d1", "d2", "d3"]).vols) ∧
    (buildAssetData ⟨["d1", "d3"], [10, 30], [1, 3], [100, 300]⟩
        ["d0", "d1", "d2", "d3"]).prices = [10, 10, 10, 30] :=
  ⟨by decide, claim_C9 ⟨["d1", "d3"], [10, 30], [1, 3], [100, 300]⟩
      ["d0", "d1", "d2", "d3"] (by decide),
   by with_unfolding_all decide⟩

/-! ## Claim C4 -/

/-- C4: the index NAV series starts at exactly 100 on the first simulated
day, and for every later day `d+1` it satisfies
`NAV[d+1] = NAV[d] * (1 + Σ_i weight_i[d] * (price_i[d+1]/price_i[d] - 1))`
— the return is applied with the previous day's recorded weights —
provided the recorded weights are nonnegative and the two prices of every
active asset are nonzero. -/
theorem claim_C4 (activeSymbols : List String) (hist : String → Nat → ℚ)
    (dataMap : String → Option AlignedAsset) (d : Nat)
    (hw : ∀ sym ∈ activeSymbols, 0 ≤ hist sym d)
    (hp : ∀ sym ∈ activeSymbols,
      priceAt dataMap sym d ≠ 0 ∧ priceAt dataMap sym (d + 1) ≠ 0) :
    indexNavAt activeSymbols hist dataMap 0 = 100 ∧
    indexNavAt activeSymbols hist dataMap (d + 1) =
      indexNavAt activeSymbols hist dataMap d *
        (1 + (activeSymbols.map (fun sym =>
          hist sym d *
            (priceAt dataMap sym (d + 1) / priceAt dataMap sym d - 1))).sum) := by
  refine ⟨rfl, ?_⟩
  have hret : dailyRetAt activeSymbols hist dataMap (d + 1) =
      (activeSymbols.map (fun sym =>
        hist sym d *
          (priceAt dataMap sym (d + 1) / priceAt dataMap sym d - 1))).sum := by
    unfold dailyRetAt
    congr 1
    apply List.map_congr_left
    intro sym hs
    obtain ⟨h1, h2⟩ := hp sym hs
    have hd' : d + 1 - 1 = d := rfl
    rw [hd']
    by_cases hw0 : 0 < hist sym d
    · simp [hw0, h1, h2]
    · have hz : hist sym d = 0 := le_antisymm (not_lt.mp hw0) (hw sym hs)
      simp [hw0, hz]
  show indexNavAt activeSymbols hist dataMap d *
      (1 + dailyRetAt activeSymbols hist dataMap (d + 1)) = _
  rw [hret]

/-- Witness for C4: one active asset with weight 1/2 and prices 1 then 2
gives NAV 100, then 150. -/
theorem claim_C4_witness :
    (∀ sym ∈ (["A"] : List String), 0 ≤ (fun (_ : String) (_ : Nat) => (1 : ℚ)/2) sym 0) ∧
    (∀ sym ∈ (["A"] : List String),
      priceAt (fun s => if s = "A" then some ⟨[1, 2, 4], [0, 0, 0], [0, 0, 0]⟩ else none)
        sym 0 ≠ 0 ∧
      priceAt (fun s => if s = "A" then some ⟨[1, 2, 4], [0, 0, 0], [0, 0, 0]⟩ else none)
        sym 1 ≠ 0) ∧
    indexNavAt ["A"] (fun _ _ => (1 : ℚ)/2)
      (fun s => if s = "A" then some ⟨[1, 2, 4], [0, 0, 0], [0, 0, 0]⟩ else none) 0 = 100 ∧
    indexNavAt ["A"] (fun _ _ => (1 : ℚ)/2)
      (fun s => if s = "A" then some ⟨[1, 2, 4], [0, 0, 0], [0, 0, 0]⟩ else none) 1 =
      indexNavAt ["A"] (fun _ _ => (1 : ℚ)/2)
        (fun s => if s = "A" then some ⟨[1, 2, 4], [0, 0, 0], [0, 0, 0]⟩ else none) 0 *
        (1 + ((["A"] : List String).map (fun sym =>
          (fun (_ : String) (_ : Nat) => (1 : ℚ)/2) sym 0 *
            (priceAt (fun s => if s = "A" then some ⟨[1, 2, 4], [0, 0, 0], [0, 0, 0]⟩ else none)
              sym 1 /
             priceAt (fun s => if s = "A" then some ⟨[1, 2, 4], [0, 0, 0], [0, 0, 0]⟩ else none)
              sym 0 - 1))).sum) ∧
    indexNavAt ["A"] (fun _ _ => (1 : ℚ)/2)
      (fun s => if s = "A" then some ⟨[1, 2, 4], [0, 0, 0], [0, 0, 0]⟩ else none) 1 = 150 := by
  refine ⟨?_, ?_, ?_, ?_, ?_⟩
  · intro sym _
    show (0 : ℚ) ≤ 1/2
    with_unfolding_all decide
  · intro sym hs
    rw [List.mem_singleton.mp hs]
    constructor <;> with_unfolding_all decide
  · exact (claim_C4 ["A"] (fun _ _ => (1 : ℚ)/2)
      (fun s => if s = "A" then some ⟨[1, 2, 4], [0, 0, 0], [0, 0, 0]⟩ else none) 0
      (fun sym _ => by
        show (0 : ℚ) ≤ 1/2
        with_unfolding_all decide)
      (fun sym hs => by
        rw [List.mem_singleton.mp hs]
        exact ⟨by with_unfolding_all decide, by with_unfolding_all decide⟩)).1
  · exact (claim_C4 ["A"] (fun _ _ => (1 : ℚ)/2)
      (fun s => if s = "A" then some ⟨[1, 2, 4], [0, 0, 0], [0, 0, 0]⟩ else none) 0
      (fun sym _ => by
        show (0 : ℚ) ≤ 1/2
        with_unfolding_all decide)
      (fun sym hs => by
        rw [List.mem_singleton.mp hs]
        exact ⟨by with_unfolding_all decide, by with_unfolding_all decide⟩)).2
  · with_unfolding_all decide

/-! ### Fixed-weight mode lemmas (claim C10) -/

lemma portfolioAfter_fixed (cfg : SimConfig) (fullUniverse : List BacktestAsset)
    (dm : String → Option AlignedAsset) (fw : List (String × ℚ))
    (hfw : cfg.fixedWeights = some fw) :
    ∀ d, portfolioAfter cfg fullUniverse dm d = fixedPortfolio fw dm := by
  intro d
  induction d with
  | zero =>
      show stepPortfolio cfg fullUniverse dm 0 [] = _
      unfold stepPortfolio
      rw [hfw]
      simp
  | succ k ih =>
      show stepPortfolio cfg fullUniverse dm (k + 1) (portfolioAfter cfg fullUniverse dm k) = _
      unfold stepPortfolio
      rw [hfw, ih]
      by_cases hreb : (k + 1) % cfg.rebalanceIntervalDays = 0 ∨ k + 1 = 0
      · rw [if_pos hreb]
        simp
      · rw [if_neg hreb]

lemma mem_fixedPortfolio_symbol (fw : List (String × ℚ))
    (dm : String → Option AlignedAsset) (p : PortfolioEntry)
    (hp : p ∈ fixedPortfolio fw dm) : p.symbol ∈ fw.map Prod.fst := by
  unfold fixedPortfolio at hp
  obtain ⟨v, hv, rfl⟩ := List.mem_map.mp hp
  exact List.mem_map_of_mem _ (List.mem_of_mem_filter hv)

lemma fixedPortfolio_filter_getLast (dm : String → Option AlignedAsset)
    (sym : String) (w : ℚ) :
    ∀ (fw : List (String × ℚ)), (fw.map Prod.fst).Nodup → (sym, w) ∈ fw →
      (dm sym).isSome →
      ((fixedPortfolio fw dm).filter (fun p => p.symbol = sym)).getLast? =
        some ⟨sym, w / priceOr1 (dataAtDay dm 0) sym, w⟩ := by
  intro fw
  induction fw with
  | nil => intro _ hmem _; cases hmem
  | cons a rest ih =>
      intro hnd hmem hs
      have hnd1 : a.1 ∉ rest.map Prod.fst := by
        simp only [List.map_cons, List.nodup_cons] at hnd
        exact hnd.1
      have hnd2 : (rest.map Prod.fst).Nodup := by
        simp only [List.map_cons, List.nodup_cons] at hnd
        exact hnd.2
      have hfp : fixedPortfolio (a :: rest) dm =
          if (dm a.1).isSome then
            (⟨a.1, a.2 / priceOr1 (dataAtDay dm 0) a.1, a.2⟩ : PortfolioEntry) ::
              fixedPortfolio rest dm
          else fixedPortfolio rest dm := by
        unfold fixedPortfolio
        rw [List.filter_cons]
        by_cases hq : (dm a.1).isSome
        · rw [if_pos (by simpa using hq), if_pos hq]
          rfl
        · rw [if_neg (by simpa using hq), if_neg hq]
      rcases List.mem_cons.mp hmem with ha | hrest
      · have ha1 : a.1 = sym := by rw [← ha]
        have ha2 : a.2 = w := by rw [← ha]
        have hq : (dm a.1).isSome := by rw [ha1]; exact hs
        rw [hfp, if_pos hq]
        have hrestnil :
            ((fixedPortfolio rest dm).filter (fun p => p.symbol = sym)) = [] := by
          rw [List.filter_eq_nil_iff]
          intro p hp hkey
          have hkey' : p.symbol = sym := by simpa using hkey
          apply hnd1
          rw [ha1, ← hkey']
          exact mem_fixedPortfolio_symbol rest dm p hp
        rw [List.filter_cons, if_pos (by simpa using ha1), hrestnil, ha1, ha2]
        rfl
      · have hne : ¬ (a.1 = sym) := by
          intro hkey
          apply hnd1
          rw [hkey]
          simpa using List.mem_map_of_mem Prod.fst hrest
        rw [hfp]
        by_cases hq : (dm a.1).isSome
        · rw [if_pos hq, List.filter_cons, if_neg (by simpa using hne)]
          exact ih hnd2 hrest hs
        · rw [if_neg hq]
          exact ih hnd2 hrest hs

lemma recordedWeight_fixedPortfolio (fullUniverse : List BacktestAsset)
    (fw : List (String × ℚ)) (dm : String → Option AlignedAsset)
    (sym : String) (w : ℚ) (hmem : (sym, w) ∈ fw) (hs : (dm sym).isSome)
    (hnd : (fw.map Prod.fst).Nodup)
    (huniv : sym ∈ fullUniverse.map (·.symbol)) :
    recordedWeight fullUniverse (fixedPortfolio fw dm) sym = w := by
  unfold recordedWeight
  rw [if_pos (List.elem_eq_true_of_mem huniv)]
  rw [fixedPortfolio_filter_getLast dm sym w fw hnd hmem hs]

/-! ## Claim C10 -/

/-- C10: with a fixed-weight map supplied, the portfolio is set once on
day 0 and never changed after (drift is skipped), and for every asset of
the map with price data the recorded weight equals the caller-supplied
weight verbatim on every simulated day — neither renormalized nor
capped. -/
theorem claim_C10 (cfg : SimConfig) (fullUniverse : List BacktestAsset)
    (dm : String → Option AlignedAsset) (fw : List (String × ℚ))
    (hfw : cfg.fixedWeights = some fw) (sym : String) (w : ℚ)
    (hmem : (sym, w) ∈ fw) (hs : (dm sym).isSome)
    (hnd : (fw.map Prod.fst).Nodup)
    (huniv : sym ∈ fullUniverse.map (·.symbol)) (d : Nat) :
    portfolioAfter cfg fullUniverse dm d = fixedPortfolio fw dm ∧
    recordedWeight fullUniverse (portfolioAfter cfg fullUniverse dm d) sym = w := by
  have hp := portfolioAfter_fixed cfg fullUniverse dm fw hfw d
  refine ⟨hp, ?_⟩
  rw [hp]
  exact recordedWeight_fixedPortfolio fullUniverse fw dm sym w hmem hs hnd huniv

/-- Witness for C10: a fixed map `A ↦ 7/10, B ↦ 9/10` (not summing to 1,
exceeding any 0.5 cap) is recorded verbatim and unchanged on day 9. -/
theorem claim_C10_witness :
    ((⟨some [("A", 7/10), ("B", 9/10)], 2, 1/2, 7⟩ : SimConfig).fixedWeights =
      some [("A", 7/10), ("B", 9/10)]) ∧
    (("A", (7 : ℚ)/10) ∈ ([("A", 7/10), ("B", 9/10)] : List (String × ℚ))) ∧
    portfolioAfter ⟨some [("A", 7/10), ("B", 9/10)], 2, 1/2, 7⟩
        [⟨"A", "A", true, "DeFi", true, true, false⟩,
         ⟨"B", "B", true, "DeFi", true, true, false⟩]
        (fun s => if s = "A" then some ⟨[2], [1], [1]⟩
          else if s = "B" then some ⟨[4], [1], [1]⟩ else none) 9 =
      fixedPortfolio [("A", 7/10), ("B", 9/10)]
        (fun s => if s = "A" then some ⟨[2], [1], [1]⟩
          else if s = "B" then some ⟨[4], [1], [1]⟩ else none) ∧
    recordedWeight
        [⟨"A", "A", true, "DeFi", true, true, false⟩,
         ⟨"B", "B", true, "DeFi", true, true, false⟩]
        (portfolioAfter ⟨some [("A", 7/10), ("B", 9/10)], 2, 1/2, 7⟩
          [⟨"A", "A", true, "DeFi", true, true, false⟩,
           ⟨"B", "B", true, "DeFi", true, true, false⟩]
          (fun s => if s = "A" then some ⟨[2], [1], [1]⟩
            else if s = "B" then some ⟨[4], [1], [1]⟩ else none) 9) "A" = 7/10 := by
  refine ⟨rfl, by simp, ?_, ?_⟩
  · exact (claim_C10 ⟨some [("A", 7/10), ("B", 9/10)], 2, 1/2, 7⟩
      [⟨"A", "A", true, "DeFi", true, true, false⟩,
       ⟨"B", "B", true, "DeFi", true, true, false⟩]
      (fun s => if s = "A" then some ⟨[2], [1], [1]⟩
        else if s = "B" then some ⟨[4], [1], [1]⟩ else none)
      [("A", 7/10), ("B", 9/10)] rfl "A" (7/10) (by simp) (by simp)
      (by simp) (by simp) 9).1
  · exact (claim_C10 ⟨some [("A", 7/10), ("B", 9/10)], 2, 1/2, 7⟩
      [⟨"A", "A", true, "DeFi", true, true, false⟩,
       ⟨"B", "B", true, "DeFi", true, true, false⟩]
      (fun s => if s = "A" then some ⟨[2], [1], [1]⟩
        else if s = "B" then some ⟨[4], [1], [1]⟩ else none)
      [("A", 7/10), ("B", 9/10)] rfl "A" (7/10) (by simp) (by simp)
      (by simp) (by simp) 9).2

/-! ### Status-marking and counting lemmas (claims C3, C6, C7) -/

lemma applyWeightEntry_symbol (wc : List WeightEntry) (u : UniverseSnapshotItem) :
    (applyWeightEntry wc u).symbol = u.symbol := by
  unfold applyWeightEntry
  cases wc.find? (fun w => w.symbol = u.symbol) <;> rfl

lemma applyWeightEntry_status (wc : List WeightEntry) (u : UniverseSnapshotItem) :
    (applyWeightEntry wc u).status = u.status := by
  unfold applyWeightEntry
  cases wc.find? (fun w => w.symbol = u.symbol) <;> rfl

lemma applyWeightEntry_mcap (wc : List WeightEntry) (u : UniverseSnapshotItem) :
    (applyWeightEntry wc u).mcap = u.mcap := by
  unfold applyWeightEntry
  cases wc.find? (fun w => w.symbol = u.symbol) <;> rfl

lemma setStatusBySyms_symbols (syms : List String) (st : InclusionStatus)
    (l : List UniverseSnapshotItem) :
    (setStatusBySyms syms st l).map (·.symbol) = l.map (·.symbol) := by
  unfold setStatusBySyms
  rw [List.map_map]
  apply List.map_congr_left
  intro u _
  simp only [Function.comp]
  split <;> rfl

lemma mem_setStatusBySyms_of_contains (syms : List String) (st : InclusionStatus)
    (l : List UniverseSnapshotItem) (v : UniverseSnapshotItem)
    (hv : v ∈ setStatusBySyms syms st l) (hc : syms.contains v.symbol) :
    v.status = st := by
  unfold setStatusBySyms at hv
  obtain ⟨u, hu, rfl⟩ := List.mem_map.mp hv
  by_cases h : syms.contains u.symbol
  · simp only [h, if_true]
  · rw [if_neg (by simpa using h)] at hc ⊢
    exact absurd hc (by simpa using h)

lemma mem_setStatusBySyms_of_status_ne (syms : List String) (st : InclusionStatus)
    (l : List UniverseSnapshotItem) (v : UniverseSnapshotItem)
    (hv : v ∈ setStatusBySyms syms st l) (hne : v.status ≠ st) : v ∈ l := by
  unfold setStatusBySyms at hv
  obtain ⟨u, hu, rfl⟩ := List.mem_map.mp hv
  by_cases h : syms.contains u.symbol
  · rw [if_pos h] at hne ⊢
    exact absurd rfl hne
  · rw [if_neg (by simpa using h)]
    exact hu

lemma countP_setStatusBySyms (l : List UniverseSnapshotItem) (syms : List String)
    (st : InclusionStatus) (Q : UniverseSnapshotItem → Bool)
    (hst : ∀ u : UniverseSnapshotItem, Q { u with status := st } = false) :
    (setStatusBySyms syms st l).countP Q =
      l.countP (fun u => Q u && !(syms.contains u.symbol)) := by
  unfold setStatusBySyms
  rw [List.countP_map]
  apply List.countP_congr
  intro u _
  simp only [Function.comp]
  by_cases h : syms.contains u.symbol
  · rw [if_pos h]
    simp only [hst u, h, Bool.not_true, Bool.and_false]
  · have h' : syms.contains u.symbol = false := by simpa using h
    rw [if_neg (by simpa using h)]
    simp only [h', Bool.not_false, Bool.and_true]

lemma countP_not_mem_drop (S sorted : List UniverseSnapshotItem)
    (hnd : (S.map (·.symbol)).Nodup) (hperm : sorted.Perm S) (n : Nat) :
    S.countP (fun u => !(((sorted.drop n).map (·.symbol)).contains u.symbol)) =
      min n S.length := by
  rw [← hperm.countP_eq]
  have hnds : (sorted.map (·.symbol)).Nodup := (hperm.map _).nodup_iff.mpr hnd
  have hdisj : List.Disjoint ((sorted.take n).map (·.symbol))
      ((sorted.drop n).map (·.symbol)) := by
    have happ : ((sorted.take n).map (·.symbol) ++
        (sorted.drop n).map (·.symbol)).Nodup := by
      rw [← List.map_append, List.take_append_drop]
      exact hnds
    exact (List.nodup_append.mp happ).2.2
  set P : UniverseSnapshotItem → Bool :=
    fun u => !(((sorted.drop n).map (·.symbol)).contains u.symbol) with hP
  have htake : (sorted.take n).countP P = (sorted.take n).length := by
    rw [List.countP_eq_length]
    intro u hu
    have humem : u.symbol ∈ (sorted.take n).map (·.symbol) :=
      List.mem_map_of_mem _ hu
    have hout : u.symbol ∉ (sorted.drop n).map (·.symbol) :=
      fun hc => hdisj humem hc
    rw [hP]
    simpa using hout
  have hdrop : (sorted.drop n).countP P = 0 := by
    rw [List.countP_eq_zero]
    intro u hu
    have hmem : u.symbol ∈ (sorted.drop n).map (·.symbol) := List.mem_map_of_mem _ hu
    rw [hP]
    simpa using hmem
  calc sorted.countP P = (sorted.take n ++ sorted.drop n).countP P := by
        rw [List.take_append_drop]
    _ = (sorted.take n).countP P + (sorted.drop n).countP P :=
        List.countP_append _ _ _
    _ = min n sorted.length := by
        rw [htake, hdrop, Nat.add_zero, List.length_take]
    _ = min n S.length := by rw [hperm.length_eq]

lemma countP_mark_eq_min (l : List UniverseSnapshotItem)
    (Q : UniverseSnapshotItem → Bool) (st : InclusionStatus) (n : Nat)
    (r : UniverseSnapshotItem → UniverseSnapshotItem → Bool)
    (hnd : (l.map (·.symbol)).Nodup)
    (hst : ∀ u : UniverseSnapshotItem, Q { u with status := st } = false) :
    (setStatusBySyms ((((l.filter Q).mergeSort r).drop n).map (·.symbol)) st
      l).countP Q = min n (l.filter Q).length := by
  rw [countP_setStatusBySyms _ _ _ _ hst]
  have h1 : l.countP (fun u => Q u &&
      !(((((l.filter Q).mergeSort r).drop n).map (·.symbol)).contains u.symbol)) =
      (l.filter Q).countP (fun u =>
        !(((((l.filter Q).mergeSort r).drop n).map (·.symbol)).contains u.symbol)) := by
    rw [List.countP_filter]
    apply List.countP_congr
    intro u _
    simp [Bool.and_comm]
  rw [h1]
  exact countP_not_mem_drop (l.filter Q) _
    (((List.filter_sublist l).map (·.symbol)).nodup hnd)
    (List.mergeSort_perm _ _) n

lemma dynamicEvaluated_symbols (fullUniverse : List BacktestAsset)
    (dataAt : String → Option (ℚ × ℚ × ℚ)) :
    (dynamicEvaluated fullUniverse dataAt).map (·.symbol) =
      fullUniverse.map (·.symbol) := by
  unfold dynamicEvaluated
  rw [List.map_map]
  apply List.map_congr_left
  intro a _
  simp only [Function.comp]
  unfold evaluateAsset
  cases dataAt a.symbol with
  | none => rfl
  | some t =>
      rcases t with ⟨p, mc, v⟩
      rfl

lemma dynamicAfterLst_symbols (fullUniverse : List BacktestAsset)
    (dataAt : String → Option (ℚ × ℚ × ℚ)) :
    (dynamicAfterLst fullUniverse dataAt).map (·.symbol) =
      fullUniverse.map (·.symbol) := by
  unfold dynamicAfterLst lstPass
  split
  · rw [setStatusBySyms_symbols, dynamicEvaluated_symbols]
  · rw [dynamicEvaluated_symbols]

lemma countP_applyWeights (wc : List WeightEntry)
    (l : List UniverseSnapshotItem) (Q : UniverseSnapshotItem → Bool)
    (hQ : ∀ u, Q (applyWeightEntry wc u) = Q u) :
    (applyWeights wc l).countP Q = l.countP Q := by
  unfold applyWeights
  rw [List.countP_map]
  apply List.countP_congr
  intro u _
  simp only [Function.comp, hQ u]

/-! ## Claim C6 -/

/-- C6: in every dynamic-mode rebalance event the number of INCLUDED
items is at most the target count `numAssets`, equals `numAssets`
whenever at least `numAssets` assets pass all base and category
criteria (i.e. are still INCLUDED after the LST pass), and every
candidate ranked below the top `numAssets` by descending market cap is
recorded as `REJECTED_RANK`. -/
theorem claim_C6 (fullUniverse : List BacktestAsset)
    (dataAt : String → Option (ℚ × ℚ × ℚ)) (numAssets : Nat) (maxWeight : ℚ)
    (date : String)
    (hnd : (fullUniverse.map (·.symbol)).Nodup) :
    ((dynamicEvent fullUniverse dataAt numAssets maxWeight date).universeSnapshot.countP
        (fun u => u.status = .INCLUDED) ≤ numAssets) ∧
    (numAssets ≤ ((dynamicAfterLst fullUniverse dataAt).filter
        (fun u => u.status = .INCLUDED)).length →
      (dynamicEvent fullUniverse dataAt numAssets maxWeight date).universeSnapshot.countP
        (fun u => u.status = .INCLUDED) = numAssets) ∧
    (∀ u ∈ (dynamicCandidates fullUniverse dataAt).drop numAssets,
      ∀ v ∈ (dynamicEvent fullUniverse dataAt numAssets maxWeight date).universeSnapshot,
        v.symbol = u.symbol → v.status = .REJECTED_RANK) := by
  have hndA : ((dynamicAfterLst fullUniverse dataAt).map (·.symbol)).Nodup := by
    rw [dynamicAfterLst_symbols]
    exact hnd
  have hQ : ∀ u, (fun u : UniverseSnapshotItem => decide (u.status = .INCLUDED))
      (applyWeightEntry
        (computeWeights (dynamicSelected fullUniverse dataAt numAssets) maxWeight) u) =
      (fun u : UniverseSnapshotItem => decide (u.status = .INCLUDED)) u := by
    intro u
    simp only [applyWeightEntry_status]
  have hcount :
      (dynamicSnapshot fullUniverse dataAt numAssets maxWeight).countP
        (fun u => u.status = .INCLUDED) =
      min numAssets ((dynamicAfterLst fullUniverse dataAt).filter
        (fun u => u.status = .INCLUDED)).length := by
    unfold dynamicSnapshot
    rw [countP_applyWeights _ _ _ hQ]
    unfold dynamicCandidates
    exact countP_mark_eq_min (dynamicAfterLst fullUniverse dataAt) _
      .REJECTED_RANK numAssets mcapDesc hndA (fun u => by rfl)
  refine ⟨?_, ?_, ?_⟩
  · show (dynamicSnapshot fullUniverse dataAt numAssets maxWeight).countP _ ≤ _
    rw [hcount]
    exact Nat.min_le_left _ _
  · intro h
    show (dynamicSnapshot fullUniverse dataAt numAssets maxWeight).countP _ = _
    rw [hcount]
    exact Nat.min_eq_left h
  · intro u hu v hv hsym
    have hvs : v ∈ applyWeights
        (computeWeights (dynamicSelected fullUniverse dataAt numAssets) maxWeight)
        (setStatusBySyms
          (((dynamicCandidates fullUniverse dataAt).drop numAssets).map (·.symbol))
          .REJECTED_RANK (dynamicAfterLst fullUniverse dataAt)) := hv
    unfold applyWeights at hvs
    obtain ⟨v', hv', rfl⟩ := List.mem_map.mp hvs
    rw [applyWeightEntry_status]
    have hsym' : v'.symbol = u.symbol := by
      rw [← applyWeightEntry_symbol
        (computeWeights (dynamicSelected fullUniverse dataAt numAssets) maxWeight) v']
      exact hsym
    apply mem_setStatusBySyms_of_contains _ _ _ _ hv'
    rw [hsym']
    exact List.elem_eq_true_of_mem (List.mem_map_of_mem _ hu)

/-! ### LST lemmas (claim C7) -/

lemma isLstIncluded_applyWeightEntry (fullUniverse : List BacktestAsset)
    (wc : List WeightEntry) (u : UniverseSnapshotItem) :
    isLstIncluded fullUniverse (applyWeightEntry wc u) =
      isLstIncluded fullUniverse u := by
  unfold isLstIncluded
  rw [applyWeightEntry_symbol, applyWeightEntry_status]

lemma isLstIncluded_update_ne (fullUniverse : List BacktestAsset)
    (u : UniverseSnapshotItem) (st : InclusionStatus) (hne : st ≠ .INCLUDED) :
    isLstIncluded fullUniverse { u with status := st } = false := by
  unfold isLstIncluded
  simp [hne]

lemma mem_setStatusBySyms_of_not_contains (syms : List String)
    (st : InclusionStatus) (l : List UniverseSnapshotItem)
    (v : UniverseSnapshotItem) (hv : v ∈ setStatusBySyms syms st l)
    (hc : ¬ syms.contains v.symbol = true) : v ∈ l := by
  unfold setStatusBySyms at hv
  obtain ⟨u, hu, rfl⟩ := List.mem_map.mp hv
  by_cases h : syms.contains u.symbol
  · rw [if_pos h] at hc ⊢
    exact absurd h hc
  · rw [if_neg (by simpa using h)]
    exact hu

lemma mcapDesc_trans : ∀ a b c : UniverseSnapshotItem,
    mcapDesc a b = true → mcapDesc b c = true → mcapDesc a c = true := by
  intro a b c hab hbc
  unfold mcapDesc at *
  simp only [decide_eq_true_eq] at *
  exact le_trans hbc hab

lemma mcapDesc_total : ∀ a b : UniverseSnapshotItem,
    (mcapDesc a b || mcapDesc b a) = true := by
  intro a b
  unfold mcapDesc
  rcases le_total a.mcap b.mcap with h | h <;> simp [h]

/-! ## Claim C7 -/

/-- C7: in every dynamic-mode rebalance event at most one liquid-staking
asset carries INCLUDED status; when more than one LST passes the six
base criteria, any surviving included LST has the maximum market cap
among the LST candidates, and every candidate after the stable-sorted
head is recorded as `REJECTED_CATEGORY`. -/
theorem claim_C7 (fullUniverse : List BacktestAsset)
    (dataAt : String → Option (ℚ × ℚ × ℚ)) (numAssets : Nat) (maxWeight : ℚ)
    (date : String)
    (hnd : (fullUniverse.map (·.symbol)).Nodup) :
    ((dynamicEvent fullUniverse dataAt numAssets maxWeight date).universeSnapshot.countP
        (isLstIncluded fullUniverse) ≤ 1) ∧
    (1 < ((dynamicEvaluated fullUniverse dataAt).filter
        (isLstIncluded fullUniverse)).length →
      (∀ v ∈ (dynamicEvent fullUniverse dataAt numAssets maxWeight date).universeSnapshot,
          isLstIncluded fullUniverse v = true →
          ∀ w ∈ (dynamicEvaluated fullUniverse dataAt).filter
            (isLstIncluded fullUniverse), w.mcap ≤ v.mcap) ∧
      (∀ u ∈ (((dynamicEvaluated fullUniverse dataAt).filter
            (isLstIncluded fullUniverse)).mergeSort mcapDesc).drop 1,
        ∀ v ∈ (dynamicEvent fullUniverse dataAt numAssets maxWeight date).universeSnapshot,
          v.symbol = u.symbol → v.status = .REJECTED_CATEGORY)) := by
  have hndE : ((dynamicEvaluated fullUniverse dataAt).map (·.symbol)).Nodup := by
    rw [dynamicEvaluated_symbols]
    exact hnd
  have hndA : ((dynamicAfterLst fullUniverse dataAt).map (·.symbol)).Nodup := by
    rw [dynamicAfterLst_symbols]
    exact hnd
  have hQapp : ∀ u, isLstIncluded fullUniverse
      (applyWeightEntry
        (computeWeights (dynamicSelected fullUniverse dataAt numAssets) maxWeight) u) =
      isLstIncluded fullUniverse u :=
    fun u => isLstIncluded_applyWeightEntry _ _ u
  have hcountA : (dynamicAfterLst fullUniverse dataAt).countP
      (isLstIncluded fullUniverse) ≤ 1 := by
    unfold dynamicAfterLst lstPass
    split
    · rename_i hgt
      rw [countP_mark_eq_min (dynamicEvaluated fullUniverse dataAt)
        (isLstIncluded fullUniverse) .REJECTED_CATEGORY 1 mcapDesc hndE
        (fun u => isLstIncluded_update_ne fullUniverse u _ (by intro h; cases h))]
      exact Nat.min_le_left _ _
    · rename_i hle
      rw [List.countP_eq_length_filter]
      exact Nat.le_of_not_lt hle
  refine ⟨?_, ?_⟩
  · show (dynamicSnapshot fullUniverse dataAt numAssets maxWeight).countP _ ≤ 1
    unfold dynamicSnapshot
    rw [countP_applyWeights _ _ _ hQapp]
    rw [countP_setStatusBySyms _ _ _ _
      (fun u => isLstIncluded_update_ne fullUniverse u _ (by intro h; cases h))]
    refine le_trans ?_ hcountA
    apply List.countP_mono_left
    intro u _ h
    simp only [Bool.and_eq_true] at h
    exact h.1
  · intro hgt
    have hAeq : dynamicAfterLst fullUniverse dataAt =
        setStatusBySyms
          (((((dynamicEvaluated fullUniverse dataAt).filter
            (isLstIncluded fullUniverse)).mergeSort mcapDesc).drop 1).map (·.symbol))
          .REJECTED_CATEGORY (dynamicEvaluated fullUniverse dataAt) := by
      unfold dynamicAfterLst lstPass
      rw [if_pos hgt]
    have hsorted : List.Pairwise (fun a b => mcapDesc a b = true)
        (((dynamicEvaluated fullUniverse dataAt).filter
          (isLstIncluded fullUniverse)).mergeSort mcapDesc) :=
      List.sorted_mergeSort mcapDesc_trans mcapDesc_total _
    constructor
    · -- any surviving included LST has maximal mcap
      intro v hv hlst w hw
      have hv0 : v ∈ applyWeights
          (computeWeights (dynamicSelected fullUniverse dataAt numAssets) maxWeight)
          (setStatusBySyms
            (((dynamicCandidates fullUniverse dataAt).drop numAssets).map (·.symbol))
            .REJECTED_RANK (dynamicAfterLst fullUniverse dataAt)) := hv
      unfold applyWeights at hv0
      obtain ⟨v1, hv1, rfl⟩ := List.mem_map.mp hv0
      rw [hQapp v1] at hlst
      rw [applyWeightEntry_mcap]
      have hv1status : v1.status = .INCLUDED := by
        unfold isLstIncluded at hlst
        simp only [Bool.and_eq_true] at hlst
        simpa using hlst.2
      have hv1A : v1 ∈ dynamicAfterLst fullUniverse dataAt :=
        mem_setStatusBySyms_of_status_ne _ _ _ _ hv1
          (by rw [hv1status]; intro h; cases h)
      have hv1nc : ¬ ((((((dynamicEvaluated fullUniverse dataAt).filter
          (isLstIncluded fullUniverse)).mergeSort mcapDesc).drop 1).map
            (·.symbol)).contains v1.symbol = true) := by
        intro hc
        have := mem_setStatusBySyms_of_contains _ _ _ v1 (hAeq ▸ hv1A) hc
        rw [hv1status] at this
        cases this
      have hv1E : v1 ∈ dynamicEvaluated fullUniverse dataAt :=
        mem_setStatusBySyms_of_not_contains _ _ _ _ (hAeq ▸ hv1A) hv1nc
      have hv1C : v1 ∈ (dynamicEvaluated fullUniverse dataAt).filter
          (isLstIncluded fullUniverse) :=
        List.mem_filter.mpr ⟨hv1E, hlst⟩
      have hv1S : v1 ∈ ((dynamicEvaluated fullUniverse dataAt).filter
          (isLstIncluded fullUniverse)).mergeSort mcapDesc :=
        (List.mergeSort_perm _ _).mem_iff.mpr hv1C
      -- v1 is the head of the sorted list
      cases hs : ((dynamicEvaluated fullUniverse dataAt).filter
          (isLstIncluded fullUniverse)).mergeSort mcapDesc with
      | nil =>
          rw [hs] at hv1S
          cases hv1S
      | cons s0 stail =>
          have hv1head : v1 = s0 := by
            rw [hs] at hv1S
            rcases List.mem_cons.mp hv1S with h | h
            · exact h
            · exfalso
              apply hv1nc
              rw [hs]
              have : v1.symbol ∈ (stail.map (·.symbol)) :=
                List.mem_map_of_mem _ h
              simp only [List.drop_succ_cons, List.drop_zero]
              exact List.elem_eq_true_of_mem this
          have hrel : ∀ t ∈ stail, mcapDesc s0 t = true := by
            rw [hs] at hsorted
            exact fun t ht => (List.pairwise_cons.mp hsorted).1 t ht
          have hwS : w ∈ ((dynamicEvaluated fullUniverse dataAt).filter
              (isLstIncluded fullUniverse)).mergeSort mcapDesc :=
            (List.mergeSort_perm _ _).mem_iff.mpr hw
          rw [hs] at hwS
          rcases List.mem_cons.mp hwS with h | h
          · rw [hv1head, h]
          · have := hrel w h
            unfold mcapDesc at this
            rw [hv1head]
            simpa using this
    · -- all non-head LST candidates end as REJECTED_CATEGORY
      intro u hu v hv hsym
      have hv0 : v ∈ applyWeights
          (computeWeights (dynamicSelected fullUniverse dataAt numAssets) maxWeight)
          (setStatusBySyms
            (((dynamicCandidates fullUniverse dataAt).drop numAssets).map (·.symbol))
            .REJECTED_RANK (dynamicAfterLst fullUniverse dataAt)) := hv
      unfold applyWeights at hv0
      obtain ⟨v1, hv1, rfl⟩ := List.mem_map.mp hv0
      rw [applyWeightEntry_status]
      rw [applyWeightEntry_symbol] at hsym
      have husym : ((((((dynamicEvaluated fullUniverse dataAt).filter
          (isLstIncluded fullUniverse)).mergeSort mcapDesc).drop 1).map
            (·.symbol)).contains v1.symbol = true) := by
        rw [hsym]
        exact List.elem_eq_true_of_mem (List.mem_map_of_mem _ hu)
      have hv1nr : ¬ ((((dynamicCandidates fullUniverse dataAt).drop
          numAssets).map (·.symbol)).contains v1.symbol = true) := by
        intro hc
        obtain ⟨c, hc1, hc2⟩ := List.mem_map.mp (List.elem_iff.mp hc)
        have hcC : c ∈ dynamicCandidates fullUniverse dataAt :=
          List.mem_of_mem_drop hc1
        have hcF : c ∈ (dynamicAfterLst fullUniverse dataAt).filter
            (fun u => u.status = .INCLUDED) := by
          unfold dynamicCandidates at hcC
          exact (List.mergeSort_perm _ _).mem_iff.mp hcC
        obtain ⟨hcA, hcI⟩ := List.mem_filter.mp hcF
        have hcst : c.status = .INCLUDED := by simpa using hcI
        have : c.status = .REJECTED_CATEGORY := by
          apply mem_setStatusBySyms_of_contains _ _ _ c (hAeq ▸ hcA)
          have hc2' : c.symbol = v1.symbol := hc2
          rw [hc2']
          exact husym
        rw [hcst] at this
        cases this
      have hv1A : v1 ∈ dynamicAfterLst fullUniverse dataAt :=
        mem_setStatusBySyms_of_not_contains _ _ _ _ hv1 hv1nr
      exact mem_setStatusBySyms_of_contains _ _ _ v1 (hAeq ▸ hv1A) husym

/-- Witness for C6: three eligible assets with market caps 300/200/100 and
target count 2 — exactly two stay INCLUDED, the third is ranked out. -/
theorem claim_C6_witness :
    ((([⟨"A", "A", true, "DeFi", true, true, false⟩,
       ⟨"B", "B", true, "DeFi", true, true, false⟩,
       ⟨"C", "C", true, "DeFi", true, true, false⟩] : List BacktestAsset).map (·.symbol)).Nodup) ∧
    (((dynamicEvent [⟨"A", "A", true, "DeFi", true, true, false⟩,
       ⟨"B", "B", true, "DeFi", true, true, false⟩,
       ⟨"C", "C", true, "DeFi", true, true, false⟩]
        (fun s => if s = "A" then some ((1 : ℚ), 300, 300000)
        else if s = "B" then some ((1 : ℚ), 200, 300000)
        else if s = "C" then some ((1 : ℚ), 100, 300000) else none) 2 (9/10) "d").universeSnapshot.countP
        (fun u => u.status = .INCLUDED) ≤ 2) ∧
    (2 ≤ ((dynamicAfterLst [⟨"A", "A", true, "DeFi", true, true, false⟩,
       ⟨"B", "B", true, "DeFi", true, true, false⟩,
       ⟨"C", "C", true, "DeFi", true, true, false⟩]
        (fun s => if s = "A" then some ((1 : ℚ), 300, 300000)
        else if s = "B" then some ((1 : ℚ), 200, 300000)
        else if s = "C" then some ((1 : ℚ), 100, 300000) else none)).filter
        (fun u => u.status = .INCLUDED)).length →
      (dynamicEvent [⟨"A", "A", true, "DeFi", true, true, false⟩,
       ⟨"B", "B", true, "DeFi", true, true, false⟩,
       ⟨"C", "C", true, "DeFi", true, true, false⟩]
        (fun s => if s = "A" then some ((1 : ℚ), 300, 300000)
        else if s = "B" then some ((1 : ℚ), 200, 300000)
        else if s = "C" then some ((1 : ℚ), 100, 300000) else none) 2 (9/10) "d").universeSnapshot.countP
        (fun u => u.status = .INCLUDED) = 2) ∧
    (∀ u ∈ (dynamicCandidates [⟨"A", "A", true, "DeFi", true, true, false⟩,
       ⟨"B", "B", true, "DeFi", true, true, false⟩,
       ⟨"C", "C", true, "DeFi", true, true, false⟩]
        (fun s => if s = "A" then some ((1 : ℚ), 300, 300000)
        else if s = "B" then some ((1 : ℚ), 200, 300000)
        else if s = "C" then some ((1 : ℚ), 100, 300000) else none)).drop 2,
      ∀ v ∈ (dynamicEvent [⟨"A", "A", true, "DeFi", true, true, false⟩,
       ⟨"B", "B", true, "DeFi", true, true, false⟩,
       ⟨"C", "C", true, "DeFi", true, true, false⟩]
        (fun s => if s = "A" then some ((1 : ℚ), 300, 300000)
        else if s = "B" then some ((1 : ℚ), 200, 300000)
        else if s = "C" then some ((1 : ℚ), 100, 300000) else none) 2 (9/10) "d").universeSnapshot,
        v.symbol = u.symbol → v.status = .REJECTED_RANK)) ∧
    ((dynamicEvent [⟨"A", "A", true, "DeFi", true, true, false⟩,
       ⟨"B", "B", true, "DeFi", true, true, false⟩,
       ⟨"C", "C", true, "DeFi", true, true, false⟩]
        (fun s => if s = "A" then some ((1 : ℚ), 300, 300000)
        else if s = "B" then some ((1 : ℚ), 200, 300000)
        else if s = "C" then some ((1 : ℚ), 100, 300000) else none) 2 (9/10) "d").universeSnapshot.countP
        (fun u => u.status = .INCLUDED) = 2) :=
  ⟨by decide,
   claim_C6 [⟨"A", "A", true, "DeFi", true, true, false⟩,
       ⟨"B", "B", true, "DeFi", true, true, false⟩,
       ⟨"C", "C", true, "DeFi", true, true, false⟩]
     (fun s => if s = "A" then some ((1 : ℚ), 300, 300000)
        else if s = "B" then some ((1 : ℚ), 200, 300000)
        else if s = "C" then some ((1 : ℚ), 100, 300000) else none) 2 (9/10) "d" (by decide),
   by with_unfolding_all decide⟩

/-- Witness for C7: two LSTs (market caps 100 and 200) plus one DeFi
asset — only the larger LST stays INCLUDED, the other is rejected as
excluded-category. -/
theorem claim_C7_witness :
    ((([⟨"L1", "L1", true, "LST", true, true, false⟩,
       ⟨"L2", "L2", true, "LST", true, true, false⟩,
       ⟨"C", "C", true, "DeFi", true, true, false⟩] : List BacktestAsset).map (·.symbol)).Nodup) ∧
    (((dynamicEvent [⟨"L1", "L1", true, "LST", true, true, false⟩,
       ⟨"L2", "L2", true, "LST", true, true, false⟩,
       ⟨"C", "C", true, "DeFi", true, true, false⟩]
        (fun s => if s = "L1" then some ((1 : ℚ), 100, 300000)
        else if s = "L2" then some ((1 : ℚ), 200, 300000)
        else if s = "C" then some ((1 : ℚ), 50, 300000) else none) 3 1 "d").universeSnapshot.countP
        (isLstIncluded [⟨"L1", "L1", true, "LST", true, true, false⟩,
       ⟨"L2", "L2", true, "LST", true, true, false⟩,
       ⟨"C", "C", true, "DeFi", true, true, false⟩]) ≤ 1) ∧
    (1 < ((dynamicEvaluated [⟨"L1", "L1", true, "LST", true, true, false⟩,
       ⟨"L2", "L2", true, "LST", true, true, false⟩,
       ⟨"C", "C", true, "DeFi", true, true, false⟩]
        (fun s => if s = "L1" then some ((1 : ℚ), 100, 300000)
        else if s = "L2" then some ((1 : ℚ), 200, 300000)
        else if s = "C" then some ((1 : ℚ), 50, 300000) else none)).filter
        (isLstIncluded [⟨"L1", "L1", true, "LST", true, true, false⟩,
       ⟨"L2", "L2", true, "LST", true, true, false⟩,
       ⟨"C", "C", true, "DeFi", true, true, false⟩])).length →
      (∀ v ∈ (dynamicEvent [⟨"L1", "L1", true, "LST", true, true, false⟩,
       ⟨"L2", "L2", true, "LST", true, true, false⟩,
       ⟨"C", "C", true, "DeFi", true, true, false⟩]
          (fun s => if s = "L1" then some ((1 : ℚ), 100, 300000)
        else if s = "L2" then some ((1 : ℚ), 200, 300000)
        else if s = "C" then some ((1 : ℚ), 50, 300000) else none) 3 1 "d").universeSnapshot,
          isLstIncluded [⟨"L1", "L1", true, "LST", true, true, false⟩,
       ⟨"L2", "L2", true, "LST", true, true, false⟩,
       ⟨"C", "C", true, "DeFi", true, true, false⟩] v = true →
          ∀ w ∈ (dynamicEvaluated [⟨"L1", "L1", true, "LST", true, true, false⟩,
       ⟨"L2", "L2", true, "LST", true, true, false⟩,
       ⟨"C", "C", true, "DeFi", true, true, false⟩]
            (fun s => if s = "L1" then some ((1 : ℚ), 100, 300000)
        else if s = "L2" then some ((1 : ℚ), 200, 300000)
        else if s = "C" then some ((1 : ℚ), 50, 300000) else none)).filter
            (isLstIncluded [⟨"L1", "L1", true, "LST", true, true, false⟩,
       ⟨"L2", "L2", true, "LST", true, true, false⟩,
       ⟨"C", "C", true, "DeFi", true, true, false⟩]), w.mcap ≤ v.mcap) ∧
      (∀ u ∈ (((dynamicEvaluated [⟨"L1", "L1", true, "LST", true, true, false⟩,
       ⟨"L2", "L2", true, "LST", true, true, false⟩,
       ⟨"C", "C", true, "DeFi", true, true, false⟩]
            (fun s => if s = "L1" then some ((1 : ℚ), 100, 300000)
        else if s = "L2" then some ((1 : ℚ), 200, 300000)
        else if s = "C" then some ((1 : ℚ), 50, 300000) else none)).filter
            (isLstIncluded [⟨"L1", "L1", true, "LST", true, true, false⟩,
       ⟨"L2", "L2", true, "LST", true, true, false⟩,
       ⟨"C", "C", true, "DeFi", true, true, false⟩])).mergeSort mcapDesc).drop 1,
        ∀ v ∈ (dynamicEvent [⟨"L1", "L1", true, "LST", true, true, false⟩,
       ⟨"L2", "L2", true, "LST", true, true, false⟩,
       ⟨"C", "C", true, "DeFi", true, true, false⟩]
            (fun s => if s = "L1" then some ((1 : ℚ), 100, 300000)
        else if s = "L2" then some ((1 : ℚ), 200, 300000)
        else if s = "C" then some ((1 : ℚ), 50, 300000) else none) 3 1 "d").universeSnapshot,
          v.symbol = u.symbol → v.status = .REJECTED_CATEGORY))) ∧
    ((dynamicEvent [⟨"L1", "L1", true, "LST", true, true, false⟩,
       ⟨"L2", "L2", true, "LST", true, true, false⟩,
       ⟨"C", "C", true, "DeFi", true, true, false⟩]
        (fun s => if s = "L1" then some ((1 : ℚ), 100, 300000)
        else if s = "L2" then some ((1 : ℚ), 200, 300000)
        else if s = "C" then some ((1 : ℚ), 50, 300000) else none) 3 1 "d").universeSnapshot.countP
        (isLstIncluded [⟨"L1", "L1", true, "LST", true, true, false⟩,
       ⟨"L2", "L2", true, "LST", true, true, false⟩,
       ⟨"C", "C", true, "DeFi", true, true, false⟩]) = 1) :=
  ⟨by decide,
   claim_C7 [⟨"L1", "L1", true, "LST", true, true, false⟩,
       ⟨"L2", "L2", true, "LST", true, true, false⟩,
       ⟨"C", "C", true, "DeFi", true, true, false⟩]
     (fun s => if s = "L1" then some ((1 : ℚ), 100, 300000)
        else if s = "L2" then some ((1 : ℚ), 200, 300000)
        else if s = "C" then some ((1 : ℚ), 50, 300000) else none) 3 1 "d" (by decide),
   by with_unfolding_all decide⟩

/-! ### Weight-sum lemmas (claim C3) -/

lemma sum_map_split (l : List UniverseSnapshotItem) (p : UniverseSnapshotItem → Bool)
    (f g : UniverseSnapshotItem → ℚ) :
    (l.map (fun u => if p u then f u else g u)).sum =
      ((l.filter p).map f).sum + ((l.filter (fun u => !p u)).map g).sum := by
  induction l with
  | nil => simp
  | cons a t ih =>
      by_cases h : p a = true
      · simp only [List.map_cons, List.sum_cons, List.filter_cons, h, if_pos,
          Bool.not_true, ih]
        simp [h]
        ring
      · have h' : p a = false := by simpa using h
        simp only [List.map_cons, List.sum_cons, List.filter_cons, h',
          Bool.not_false, ih]
        simp [h']
        ring

lemma sum_map_sub_q {α : Type} (l : List α) (f g : α → ℚ) :
    (l.map (fun u => f u - g u)).sum = (l.map f).sum - (l.map g).sum := by
  induction l with
  | nil => simp
  | cons a t ih =>
      simp only [List.map_cons, List.sum_cons, ih]
      ring

lemma sum_map_const_q {α : Type} (l : List α) (c : ℚ) :
    (l.map (fun _ => c)).sum = l.length * c := by
  induction l with
  | nil => simp
  | cons a t ih =>
      simp only [List.map_cons, List.sum_cons, ih, List.length_cons]
      push_cast
      ring

lemma sum_rawWeights (selected : List UniverseSnapshotItem)
    (hT : 0 < (selected.map (·.mcap)).sum) :
    (selected.map (fun u => rawWeight selected u)).sum = 1 := by
  have h1 : ∀ u ∈ selected, rawWeight selected u =
      u.mcap * ((selected.map (·.mcap)).sum)⁻¹ := by
    intro u _
    unfold rawWeight
    rw [div_eq_mul_inv]
  rw [List.map_congr_left h1, List.sum_map_mul_right]
  exact mul_inv_cancel₀ (ne_of_gt hT)

lemma computeWeights_weight_sum (selected : List UniverseSnapshotItem) (mw : ℚ)
    (hT : 0 < (selected.map (·.mcap)).sum)
    (hunc : ∃ u ∈ selected, ¬ mw < rawWeight selected u) :
    ((computeWeights selected mw).map (·.weight)).sum = 1 := by
  rw [computeWeights_eq, List.map_map]
  have hw : ∀ u ∈ selected, ((·.weight) ∘ specAllocEntry selected mw) u =
      if (fun u => decide (mw < rawWeight selected u)) u then mw
      else rawWeight selected u +
        surplusOf selected mw / (uncappedCountOf selected mw : ℚ) := by
    intro u _
    simp only [Function.comp]
    unfold specAllocEntry
    by_cases h : mw < rawWeight selected u <;> simp [h]
  rw [List.map_congr_left hw, sum_map_split]
  have hfiltEq : selected.filter
      (fun u => !((fun u => decide (mw < rawWeight selected u)) u)) =
      selected.filter (fun u => ¬ mw < rawWeight selected u) :=
    List.filter_congr (fun u _ => by
      by_cases hx : mw < rawWeight selected u <;> simp [hx])
  rw [hfiltEq]
  have hk : uncappedCountOf selected mw =
      (selected.filter (fun u => ¬ mw < rawWeight selected u)).length := rfl
  have hkpos : 0 < uncappedCountOf selected mw := by
    rw [hk]
    obtain ⟨u, hu, hraw⟩ := hunc
    have : u ∈ selected.filter (fun u => ¬ mw < rawWeight selected u) :=
      List.mem_filter.mpr ⟨hu, by simpa using hraw⟩
    exact List.length_pos.mpr (fun hnil => by rw [hnil] at this; cases this)
  have hkne : ((uncappedCountOf selected mw : ℚ)) ≠ 0 := by
    exact_mod_cast Nat.pos_iff_ne_zero.mp hkpos
  -- expand the uncapped part
  have huncsum : ((selected.filter (fun u => ¬ mw < rawWeight selected u)).map
      (fun u => rawWeight selected u +
        surplusOf selected mw / (uncappedCountOf selected mw : ℚ))).sum =
      ((selected.filter (fun u => ¬ mw < rawWeight selected u)).map
        (fun u => rawWeight selected u)).sum + surplusOf selected mw := by
    have hsplit : ∀ u ∈ selected.filter (fun u => ¬ mw < rawWeight selected u),
        (fun u => rawWeight selected u +
          surplusOf selected mw / (uncappedCountOf selected mw : ℚ)) u =
        (fun u => rawWeight selected u) u +
          (fun _ => surplusOf selected mw / (uncappedCountOf selected mw : ℚ)) u :=
      fun u _ => rfl
    rw [List.map_congr_left hsplit]
    have hadd : ∀ (l : List UniverseSnapshotItem) (f g : UniverseSnapshotItem → ℚ),
        (l.map (fun u => f u + g u)).sum = (l.map f).sum + (l.map g).sum := by
      intro l f g
      induction l with
      | nil => simp
      | cons a t ih =>
          simp only [List.map_cons, List.sum_cons, ih]
          ring
    rw [hadd, sum_map_const_q, hk]
    congr 1
    exact mul_div_cancel₀ _ (by rw [← hk]; exact hkne)
  rw [huncsum]
  -- expand the capped part: surplus = sum of raw - count * mw over capped
  have hcapsum : ((selected.filter (fun u => decide (mw < rawWeight selected u))).map
      (fun _ => mw)).sum =
      ((selected.filter (fun u => decide (mw < rawWeight selected u))).map
        (fun u => rawWeight selected u)).sum - surplusOf selected mw := by
    have hS : surplusOf selected mw =
        ((selected.filter (fun u => decide (mw < rawWeight selected u))).map
          (fun u => rawWeight selected u)).sum -
        ((selected.filter (fun u => decide (mw < rawWeight selected u))).map
          (fun _ => mw)).sum := by
      unfold surplusOf
      rw [← sum_map_sub_q]
    rw [hS]
    ring
  rw [hcapsum]
  have hsplitraw :
      ((selected.filter (fun u => decide (mw < rawWeight selected u))).map
        (fun u => rawWeight selected u)).sum +
      ((selected.filter (fun u => ¬ mw < rawWeight selected u)).map
        (fun u => rawWeight selected u)).sum =
      (selected.map (fun u => rawWeight selected u)).sum := by
    have := sum_map_split selected (fun u => decide (mw < rawWeight selected u))
      (fun u => rawWeight selected u) (fun u => rawWeight selected u)
    rw [List.map_congr_left (fun u _ => ite_self ((fun u => rawWeight selected u) u))] at this
    rw [this, hfiltEq]
  have hfinal := sum_rawWeights selected hT
  linarith [hsplitraw, hfinal]

lemma specAllocEntry_symbol (selected : List UniverseSnapshotItem) (mw : ℚ)
    (u : UniverseSnapshotItem) : (specAllocEntry selected mw u).symbol = u.symbol := by
  unfold specAllocEntry
  split <;> rfl

lemma find?_map_symbol (g : UniverseSnapshotItem → WeightEntry)
    (hg : ∀ x, (g x).symbol = x.symbol) :
    ∀ (selected : List UniverseSnapshotItem),
      ((selected.map (·.symbol)).Nodup) →
      ∀ u ∈ selected,
        (selected.map g).find? (fun w => w.symbol = u.symbol) = some (g u) := by
  intro selected
  induction selected with
  | nil => intro _ u hu; cases hu
  | cons a t ih =>
      intro hnd u hu
      have hnd1 : a.symbol ∉ t.map (·.symbol) := by
        simp only [List.map_cons, List.nodup_cons] at hnd
        exact hnd.1
      have hnd2 : (t.map (·.symbol)).Nodup := by
        simp only [List.map_cons, List.nodup_cons] at hnd
        exact hnd.2
      rcases List.mem_cons.mp hu with rfl | hut
      · rw [List.map_cons]
        exact List.find?_cons_of_pos _ (by simp [hg u])
      · have hne : ¬ ((fun w => decide (w.symbol = u.symbol)) (g a) = true) := by
          simp only [hg a, decide_eq_true_eq]
          intro hc
          apply hnd1
          rw [hc]
          exact List.mem_map_of_mem _ hut
        rw [List.map_cons]
        have hstep : List.find? (fun w => decide (w.symbol = u.symbol))
            (g a :: t.map g) =
            List.find? (fun w => decide (w.symbol = u.symbol)) (t.map g) :=
          List.find?_cons_of_neg _ hne
        rw [hstep]
        exact ih hnd2 u hut

lemma applyWeightEntry_of_mem (selected : List UniverseSnapshotItem) (mw : ℚ)
    (hnd : (selected.map (·.symbol)).Nodup) (u : UniverseSnapshotItem)
    (hu : u ∈ selected) :
    applyWeightEntry (computeWeights selected mw) u =
      { u with weight := (specAllocEntry selected mw u).weight } := by
  unfold applyWeightEntry
  rw [computeWeights_eq,
    find?_map_symbol (specAllocEntry selected mw)
      (specAllocEntry_symbol selected mw) selected hnd u hu]

lemma filter_applyWeights (wc : List WeightEntry) (l : List UniverseSnapshotItem) :
    (applyWeights wc l).filter (fun u => u.status = .INCLUDED) =
      (l.filter (fun u => u.status = .INCLUDED)).map (applyWeightEntry wc) := by
  unfold applyWeights
  rw [List.filter_map]
  congr 1
  apply List.filter_congr
  intro u _
  simp only [Function.comp, applyWeightEntry_status]

lemma filter_included_setStatusBySyms (syms : List String) (st : InclusionStatus)
    (l : List UniverseSnapshotItem) (hst : st ≠ .INCLUDED) :
    (setStatusBySyms syms st l).filter (fun u => u.status = .INCLUDED) =
      l.filter (fun u => decide (u.status = .INCLUDED) && !(syms.contains u.symbol)) := by
  unfold setStatusBySyms
  rw [List.filter_map]
  have hpred : List.filter ((fun u : UniverseSnapshotItem =>
      decide (u.status = .INCLUDED)) ∘ fun u =>
      if syms.contains u.symbol then { u with status := st } else u) l =
      List.filter (fun u => decide (u.status = .INCLUDED) &&
        !(syms.contains u.symbol)) l := by
    apply List.filter_congr
    intro u _
    simp only [Function.comp]
    by_cases h : syms.contains u.symbol
    · have hmem : u.symbol ∈ syms := by simpa using h
      simp [hmem, hst]
    · have hmem : u.symbol ∉ syms := by simpa using h
      simp [hmem]
  rw [hpred]
  have hid : ∀ u ∈ List.filter (fun u => decide (u.status = .INCLUDED) &&
      !(syms.contains u.symbol)) l,
      (fun u => if syms.contains u.symbol then { u with status := st } else u) u = u := by
    intro u hu
    have hf := (List.mem_filter.mp hu).2
    simp only [Bool.and_eq_true] at hf
    have hc : u.symbol ∉ syms := by
      rcases hf with ⟨_, hf2⟩
      simpa using hf2
    simp [hc]
  rw [List.map_congr_left hid]
  simp

lemma filter_included_marked_perm (afterLst : List UniverseSnapshotItem) (n : Nat)
    (hnd : (afterLst.map (·.symbol)).Nodup) :
    (afterLst.filter (fun u => decide (u.status = .INCLUDED) &&
      !((((((afterLst.filter (fun u => u.status = .INCLUDED)).mergeSort
        mcapDesc).drop n).map (·.symbol))).contains u.symbol))).Perm
      (((afterLst.filter (fun u => u.status = .INCLUDED)).mergeSort
        mcapDesc).take n) := by
  set cands := (afterLst.filter (fun u => u.status = .INCLUDED)).mergeSort mcapDesc
    with hcands
  set dropSyms := ((cands.drop n).map (·.symbol)) with hdropSyms
  have h1 : (afterLst.filter (fun u => u.status = .INCLUDED)).filter
      (fun u => !(dropSyms.contains u.symbol)) =
      afterLst.filter (fun u => decide (u.status = .INCLUDED) &&
        !(dropSyms.contains u.symbol)) := by
    rw [List.filter_filter]
    exact List.filter_congr (fun u _ => Bool.and_comm _ _)
  rw [← h1]
  have h2 : ((afterLst.filter (fun u => u.status = .INCLUDED)).filter
      (fun u => !(dropSyms.contains u.symbol))).Perm
      (cands.filter (fun u => !(dropSyms.contains u.symbol))) :=
    List.Perm.filter _ (List.mergeSort_perm _ mcapDesc).symm
  refine h2.trans ?_
  have hnds : (cands.map (·.symbol)).Nodup := by
    apply ((List.mergeSort_perm (afterLst.filter
      (fun u => u.status = .INCLUDED)) mcapDesc).map (·.symbol)).nodup_iff.mpr
    exact (((List.filter_sublist afterLst).map (·.symbol)).nodup hnd)
  have hdisj : List.Disjoint ((cands.take n).map (·.symbol))
      ((cands.drop n).map (·.symbol)) := by
    have happ : ((cands.take n).map (·.symbol) ++
        (cands.drop n).map (·.symbol)).Nodup := by
      rw [← List.map_append, List.take_append_drop]
      exact hnds
    exact (List.nodup_append.mp happ).2.2
  have heq : cands.filter (fun u => !(dropSyms.contains u.symbol)) =
      cands.take n := by
    conv_lhs => rw [← List.take_append_drop n cands]
    rw [List.filter_append]
    have ht : (cands.take n).filter (fun u => !(dropSyms.contains u.symbol)) =
        cands.take n := by
      rw [List.filter_eq_self]
      intro u hu
      have humem : u.symbol ∈ (cands.take n).map (·.symbol) :=
        List.mem_map_of_mem _ hu
      have hout : u.symbol ∉ dropSyms := fun hc => hdisj humem (by rw [hdropSyms] at hc; exact hc)
      simpa using hout
    have hd0 : (cands.drop n).filter (fun u => !(dropSyms.contains u.symbol)) =
        [] := by
      rw [List.filter_eq_nil_iff]
      intro u hu
      have : u.symbol ∈ dropSyms := by
        rw [hdropSyms]
        exact List.mem_map_of_mem _ hu
      simp [this]
    rw [ht, hd0, List.append_nil]
  rw [heq]

lemma snapshot_included_weight_sum (fullUniverse : List BacktestAsset)
    (dataAt : String → Option (ℚ × ℚ × ℚ)) (numAssets : Nat) (maxWeight : ℚ)
    (hnd : (fullUniverse.map (·.symbol)).Nodup)
    (hT : 0 < ((dynamicSelected fullUniverse dataAt numAssets).map (·.mcap)).sum)
    (hunc : ∃ u ∈ dynamicSelected fullUniverse dataAt numAssets,
      ¬ maxWeight < rawWeight (dynamicSelected fullUniverse dataAt numAssets) u) :
    (((dynamicSnapshot fullUniverse dataAt numAssets maxWeight).filter
      (fun u => u.status = .INCLUDED)).map (·.weight)).sum = 1 := by
  have hndA : ((dynamicAfterLst fullUniverse dataAt).map (·.symbol)).Nodup := by
    rw [dynamicAfterLst_symbols]
    exact hnd
  unfold dynamicSnapshot
  rw [filter_applyWeights,
    filter_included_setStatusBySyms _ _ _ (by intro h; cases h), List.map_map]
  have hperm : (((dynamicAfterLst fullUniverse dataAt).filter
      (fun u => decide (u.status = .INCLUDED) &&
        !((((dynamicCandidates fullUniverse dataAt).drop numAssets).map
          (·.symbol)).contains u.symbol))).map
      ((fun u : UniverseSnapshotItem => u.weight) ∘ applyWeightEntry
        (computeWeights (dynamicSelected fullUniverse dataAt numAssets) maxWeight))).Perm
      ((dynamicSelected fullUniverse dataAt numAssets).map
      ((fun u : UniverseSnapshotItem => u.weight) ∘ applyWeightEntry
        (computeWeights (dynamicSelected fullUniverse dataAt numAssets) maxWeight))) := by
    apply List.Perm.map
    exact filter_included_marked_perm (dynamicAfterLst fullUniverse dataAt)
      numAssets hndA
  rw [hperm.sum_eq]
  have hndSel : ((dynamicSelected fullUniverse dataAt numAssets).map
      (·.symbol)).Nodup := by
    have hndC : ((dynamicCandidates fullUniverse dataAt).map (·.symbol)).Nodup := by
      apply ((List.mergeSort_perm ((dynamicAfterLst fullUniverse dataAt).filter
        (fun u => u.status = .INCLUDED)) mcapDesc).map
          (fun u : UniverseSnapshotItem => u.symbol)).nodup_iff.mpr
      exact (((List.filter_sublist (dynamicAfterLst fullUniverse dataAt)).map
        (fun u : UniverseSnapshotItem => u.symbol)).nodup hndA)
    exact ((List.take_sublist numAssets (dynamicCandidates fullUniverse dataAt)).map
      (fun u : UniverseSnapshotItem => u.symbol)).nodup hndC
  have hpt : ∀ u ∈ dynamicSelected fullUniverse dataAt numAssets,
      ((fun u : UniverseSnapshotItem => u.weight) ∘ applyWeightEntry
        (computeWeights (dynamicSelected fullUniverse dataAt numAssets) maxWeight)) u =
      (specAllocEntry (dynamicSelected fullUniverse dataAt numAssets) maxWeight u).weight := by
    intro u hu
    simp only [Function.comp]
    rw [applyWeightEntry_of_mem _ _ hndSel u hu]
  rw [List.map_congr_left hpt]
  have hback : ((dynamicSelected fullUniverse dataAt numAssets).map
      (fun u => (specAllocEntry (dynamicSelected fullUniverse dataAt numAssets)
        maxWeight u).weight)).sum =
      ((computeWeights (dynamicSelected fullUniverse dataAt numAssets)
        maxWeight).map (·.weight)).sum := by
    rw [computeWeights_eq, List.map_map]
    rfl
  rw [hback]
  exact computeWeights_weight_sum _ _ hT hunc

/-! ## Claim C3 -/

/-- C3 (amended): on a dynamic rebalance date the INCLUDED weights of the
rebalance event sum to exactly 1 provided the selected set is non-empty
with positive total market cap and at least one selected asset is
uncapped (raw weight not above `maxWeight`); on drift days the drifted
portfolio weights sum to exactly 1 whenever total portfolio value is
positive. -/
theorem claim_C3 (fullUniverse : List BacktestAsset)
    (dataAt : String → Option (ℚ × ℚ × ℚ)) (numAssets : Nat) (maxWeight : ℚ)
    (date : String)
    (hnd : (fullUniverse.map (·.symbol)).Nodup)
    (hne : dynamicSelected fullUniverse dataAt numAssets ≠ [])
    (hT : 0 < ((dynamicSelected fullUniverse dataAt numAssets).map (·.mcap)).sum)
    (hunc : ∃ u ∈ dynamicSelected fullUniverse dataAt numAssets,
      ¬ maxWeight < rawWeight (dynamicSelected fullUniverse dataAt numAssets) u) :
    ((((dynamicEvent fullUniverse dataAt numAssets maxWeight date).universeSnapshot.filter
      (fun u => u.status = .INCLUDED)).map (·.weight)).sum = 1) ∧
    (∀ (dm : String → Option AlignedAsset) (d : Nat) (port : List PortfolioEntry),
      0 < (port.map (fun p => p.shares * priceOr1 (dataAtDay dm d) p.symbol)).sum →
      ((driftStep dm d port).map (·.weight)).sum = 1) := by
  constructor
  · exact snapshot_included_weight_sum fullUniverse dataAt numAssets maxWeight
      hnd hT hunc
  · intro dm d port hpos
    unfold driftStep
    rw [List.map_map]
    have hpt : ∀ p ∈ port,
        ((fun q : PortfolioEntry => q.weight) ∘ fun q : PortfolioEntry =>
          { q with weight := if 0 < (port.map (fun p =>
              p.shares * priceOr1 (dataAtDay dm d) p.symbol)).sum then
            (q.shares * priceOr1 (dataAtDay dm d) q.symbol) /
              (port.map (fun p => p.shares * priceOr1 (dataAtDay dm d) p.symbol)).sum
          else 0 }) p =
        (p.shares * priceOr1 (dataAtDay dm d) p.symbol) *
          ((port.map (fun p => p.shares * priceOr1 (dataAtDay dm d) p.symbol)).sum)⁻¹ := by
      intro p _
      simp only [Function.comp]
      rw [if_pos hpos, div_eq_mul_inv]
    rw [List.map_congr_left hpt, List.sum_map_mul_right]
    exact mul_inv_cancel₀ (ne_of_gt hpos)

/-- Witness for C3: two selected assets with market caps 300 and 100 under
`maxWeight = 3/5` — the INCLUDED snapshot weights sum to exactly 1, and a
concrete drifted portfolio also sums to 1. -/
theorem claim_C3_witness :
    ((([⟨"A", "A", true, "DeFi", true, true, false⟩,
       ⟨"B", "B", true, "DeFi", true, true, false⟩] : List BacktestAsset).map (·.symbol)).Nodup) ∧
    (dynamicSelected [⟨"A", "A", true, "DeFi", true, true, false⟩,
       ⟨"B", "B", true, "DeFi", true, true, false⟩]
      (fun s => if s = "A" then some ((1 : ℚ), 300, 300000)
        else if s = "B" then some ((1 : ℚ), 100, 300000) else none) 2 ≠ []) ∧
    (0 < ((dynamicSelected [⟨"A", "A", true, "DeFi", true, true, false⟩,
       ⟨"B", "B", true, "DeFi", true, true, false⟩]
      (fun s => if s = "A" then some ((1 : ℚ), 300, 300000)
        else if s = "B" then some ((1 : ℚ), 100, 300000) else none) 2).map (·.mcap)).sum) ∧
    (∃ u ∈ dynamicSelected [⟨"A", "A", true, "DeFi", true, true, false⟩,
       ⟨"B", "B", true, "DeFi", true, true, false⟩]
      (fun s => if s = "A" then some ((1 : ℚ), 300, 300000)
        else if s = "B" then some ((1 : ℚ), 100, 300000) else none) 2,
      ¬ (3 : ℚ)/5 < rawWeight (dynamicSelected [⟨"A", "A", true, "DeFi", true, true, false⟩,
       ⟨"B", "B", true, "DeFi", true, true, false⟩]
        (fun s => if s = "A" then some ((1 : ℚ), 300, 300000)
        else if s = "B" then some ((1 : ℚ), 100, 300000) else none) 2) u) ∧
    (((((dynamicEvent [⟨"A", "A", true, "DeFi", true, true, false⟩,
       ⟨"B", "B", true, "DeFi", true, true, false⟩]
        (fun s => if s = "A" then some ((1 : ℚ), 300, 300000)
        else if s = "B" then some ((1 : ℚ), 100, 300000) else none) 2 (3/5) "d").universeSnapshot.filter
      (fun u => u.status = .INCLUDED)).map (·.weight)).sum = 1) ∧
    (∀ (dm : String → Option AlignedAsset) (d : Nat) (port : List PortfolioEntry),
      0 < (port.map (fun p => p.shares * priceOr1 (dataAtDay dm d) p.symbol)).sum →
      ((driftStep dm d port).map (·.weight)).sum = 1)) :=
  ⟨by decide, by with_unfolding_all decide, by with_unfolding_all decide,
   by with_unfolding_all decide,
   claim_C3 [⟨"A", "A", true, "DeFi", true, true, false⟩,
       ⟨"B", "B", true, "DeFi", true, true, false⟩]
     (fun s => if s = "A" then some ((1 : ℚ), 300, 300000)
        else if s = "B" then some ((1 : ℚ), 100, 300000) else none) 2 (3/5) "d" (by decide) (by with_unfolding_all decide)
     (by with_unfolding_all decide) (by with_unfolding_all decide)⟩

/-- Counterexample to C3 as stated ("for every universe and every
maxWeight"): two equal-market-cap assets under `maxWeight = 2/5` are both
clipped, nobody is left to receive the surplus, and the INCLUDED weights
of the rebalance event sum to 4/5, outside the claimed 1 ± 1e-9 band. -/
theorem claim_C3_counterexample :
    ((((dynamicEvent [⟨"AAA", "AAA", true, "DeFi", true, true, false⟩,
       ⟨"BBB", "BBB", true, "DeFi", true, true, false⟩]
        (fun s => if s = "AAA" then some ((1 : ℚ), 300, 300000)
        else if s = "BBB" then some ((1 : ℚ), 300, 300000) else none) 2 (2/5) "d").universeSnapshot.filter
      (fun u => u.status = .INCLUDED)).map (·.weight)).sum = 4/5) ∧
    ((((dynamicEvent [⟨"AAA", "AAA", true, "DeFi", true, true, false⟩,
       ⟨"BBB", "BBB", true, "DeFi", true, true, false⟩]
        (fun s => if s = "AAA" then some ((1 : ℚ), 300, 300000)
        else if s = "BBB" then some ((1 : ℚ), 300, 300000) else none) 2 (2/5) "d").universeSnapshot.filter
      (fun u => u.status = .INCLUDED)).map (·.weight)).sum ≠ 1) ∧
    ((1 : ℚ)/1000000000 < 1 -
      (((dynamicEvent [⟨"AAA", "AAA", true, "DeFi", true, true, false⟩,
       ⟨"BBB", "BBB", true, "DeFi", true, true, false⟩]
        (fun s => if s = "AAA" then some ((1 : ℚ), 300, 300000)
        else if s = "BBB" then some ((1 : ℚ), 300, 300000) else none) 2 (2/5) "d").universeSnapshot.filter
      (fun u => u.status = .INCLUDED)).map (·.weight)).sum) := by
  refine ⟨?_, ?_, ?_⟩ <;> with_unfolding_all decide

end Soleco
